import Mathlib

/-!
Shallow embedding of the caching and data-access core of
src/coursebuilder/models/models.py: the MemcacheManager facade (a two-tier
cache with a reentrant read-only snapshot mode) and the BaseJsonDao generic
record store built on top of it.  External collaborators (the App Engine
memcache client, the datastore, the transforms JSON codec, registered
post-load hooks, the application context of controllers/sites) are modelled
by the interface they present, with their state carried explicitly.
-/

namespace TMS


/-- Association-list lookup with decidable key equality, modelling Python dict
lookup. -/
def alookup {κ ν : Type} [DecidableEq κ] : List (κ × ν) → κ → Option ν
  | [], _ => none
  | (k, v) :: t, q => if q = k then some v else alookup t q

/-- Association-list insert-or-overwrite, modelling Python dict assignment. -/
def aInsert {κ ν : Type} [DecidableEq κ] (k : κ) (v : ν) : List (κ × ν) → List (κ × ν)
  | [] => [(k, v)]
  | (k1, v1) :: t => if k1 = k then (k, v) :: t else (k1, v1) :: aInsert k v t

/-- Association-list erase, modelling dict/datastore deletion. -/
def aErase {κ ν : Type} [DecidableEq κ] (k : κ) : List (κ × ν) → List (κ × ν)
  | [] => []
  | (k1, v1) :: t => if k1 = k then t else (k1, v1) :: aErase k t

/-- Datastore identifier as produced by key.id_or_name(): a numeric auto-id or a
caller-supplied string name. -/
inductive EId where
  | num (n : Nat)
  | name (s : String)
deriving DecidableEq, Repr

/-- Python str() of an id, as interpolated by the %s formatting in _memcache_key. -/
def eidStr : EId → String
  | .num n => toString n
  | .name s => s

/-- Python truthiness of an id value: 0 and the empty string are falsy. -/
def eidTruthy : EId → Bool
  | .num n => n != 0
  | .name s => s != ""

/-- Python truthiness of an optional id (None is falsy), as tested by the
obj_id guard of _load_entity. -/
def idTruthy : Option EId → Bool
  | none => false
  | some i => eidTruthy i

/-- Datastore entity of the single JSON-blob kind: its key (absent until the
first put for numeric auto-ids) and the serialized data blob.  transforms is an
external JSON codec, so payloads are modelled by their serialized form and
transforms.loads/dumps round-trip as the identity. -/
structure Ent where
  key : Option EId
  data : String
deriving DecidableEq, Repr

/-- DTO wrapping an identifier and a JSON-serializable payload (modelled by its
serialized form, see Ent). -/
structure Dto where
  id : Option EId
  dict : String
deriving DecidableEq, Repr

/-- Values held by the cache tiers.  Python object identity matters for the
NO_OBJECT sentinel of models.py line 45: noObject is that one module-level dict
object, while emptyDict is any other dict structurally equal to it.  pyNone
stands for Python None, which memcache.get returns on a miss and which the
local cache may store.  aggregate is the mapping cached by get_all_mapped and
intVal a numeric value as used by incr. -/
inductive CacheVal where
  | pyNone
  | noObject
  | emptyDict
  | entity (e : Ent)
  | aggregate (m : List (Option EId × Dto))
  | intVal (n : Nat)
deriving DecidableEq, Repr

/-- Python structural equality of the NO_OBJECT empty dict with a value: it is
true for the sentinel itself, for any other empty dict, and for an empty
aggregate mapping; an entity object or None never equals a dict. -/
def pyEqNoObject : CacheVal → Bool
  | .noObject => true
  | .emptyDict => true
  | .aggregate m => m.isEmpty
  | _ => false

/-- Python truthiness of a cached value: None, empty dicts and zero are falsy. -/
def pyTruthy : CacheVal → Bool
  | .pyNone => false
  | .noObject => false
  | .emptyDict => false
  | .entity _ => true
  | .aggregate m => !m.isEmpty
  | .intVal n => n != 0

/-- Exceptions crossing the embedded code: AssertionError from the snapshot
invariant checks and asserts, a transport failure raised by the external
memcache client on a write, and AttributeError/ValueError from Python attribute
access and int(). -/
inductive Err where
  | assertion (msg : String)
  | backendErr
  | attributeError (msg : String)
  | valueError (msg : String)
deriving DecidableEq, Repr

/-- Outcome of a stateful operation: a normal return or a propagating
exception, in both cases with the class-level state as it stands at that
point. -/
inductive Res (σ α : Type) where
  | ok (a : α) (s : σ)
  | err (e : Err) (s : σ)
deriving Repr

/-- State reached by an operation, whether it returned or raised. -/
def Res.stateOf {σ α : Type} : Res σ α → σ
  | .ok _ s => s
  | .err _ s => s

/-- Returned value of an operation, none if it raised. -/
def Res.valOf {σ α : Type} : Res σ α → Option α
  | .ok a _ => some a
  | .err _ _ => none

/-- Whether the operation raised. -/
def Res.raised {σ α : Type} : Res σ α → Bool
  | .ok _ _ => false
  | .err _ _ => true

/-- Environment of a MemcacheManager call: the CAN_USE_MEMCACHE flag, the
external sys.getsizeof measure on keys and values, whether the external
memcache backend raises a transport failure, the process-resolved current
namespace, and the application context that sites.get_course_for_current_request
returns for this unit of work. -/
structure MCfg where
  canUse : Bool
  sizeOfKey : String → Nat
  sizeOfVal : CacheVal → Nat
  backendFails : Bool
  currentNs : String
  currentCtx : Option Nat

/-- Content of the external memcache service: (namespace, key) to value. -/
abbrev Backend := List ((String × String) × CacheVal)

/-- The local snapshot cache _LOCAL_CACHE: namespace to (key to value). -/
abbrev LocalMap := List (String × List (String × CacheVal))

/-- Class-level state of MemcacheManager together with the external memcache
backend content and the performance counters. -/
structure MCState where
  backend : Backend
  localCache : Option LocalMap
  isReadonly : Bool
  reentryCount : Int
  appContext : Option Nat
  cachePut : Nat
  cachePutTooBig : Nat
  cacheHit : Nat
  cacheMiss : Nat
  cacheDelete : Nat
  cachePutLocal : Nat
  cacheHitLocal : Nat
  cacheMissLocal : Nat
deriving DecidableEq, Repr

/-- Fresh process state: no snapshot, empty backend, zeroed counters. -/
def initMCState : MCState :=
  { backend := [], localCache := none, isReadonly := false, reentryCount := 0,
    appContext := none, cachePut := 0, cachePutTooBig := 0, cacheHit := 0,
    cacheMiss := 0, cacheDelete := 0, cachePutLocal := 0, cacheHitLocal := 0,
    cacheMissLocal := 0 }

def bLookup (b : Backend) (ns k : String) : Option CacheVal := alookup b (ns, k)

def bInsert (b : Backend) (ns k : String) (v : CacheVal) : Backend :=
  aInsert (ns, k) v b

def bDelete (b : Backend) (ns k : String) : Backend := aErase (ns, k) b

/-- memcache.get semantics of the external client: a miss is None. -/
def bGet (b : Backend) (ns k : String) : CacheVal := (bLookup b ns k).getD .pyNone

/-- memcache.get_multi semantics of the external client: the mapping holding
only the keys present in the backend (duplicate keys collapse under
association-list lookup exactly as in a dict). -/
def bGetMulti (b : Backend) (ns : String) (keys : List String) :
    List (String × CacheVal) :=
  keys.filterMap (fun k => (bLookup b ns k).map (fun v => (k, v)))

/-- MemcacheManager._get_namespace: an explicit namespace wins, else the
process-resolved current namespace of get_namespace. -/
def resolveNs (cfg : MCfg) : Option String → String
  | some ns => ns
  | none => cfg.currentNs

/-- MemcacheManager._is_same_app_context_if_set.  ApplicationContext.check_same
lives in controllers/sites, outside this repository slice; modelled from the
spec: the calling context must match the recorded owning context. -/
def isSameAppCtx (cfg : MCfg) (m : MCState) : Bool :=
  match m.appContext with
  | none => true
  | some c => cfg.currentCtx = some c

/-- Namespace sub-dict access of _local_cache_get/_local_cache_put: when the
namespace has no (or an empty, hence falsy) sub-dict, a fresh empty one is
installed in _LOCAL_CACHE. -/
def ensureNsDict (lc : LocalMap) (ns : String) :
    LocalMap × List (String × CacheVal) :=
  let d := (alookup lc ns).getD []
  if d.isEmpty then (aInsert ns [] lc, []) else (lc, d)

/-- MemcacheManager._local_cache_get. -/
def localCacheGet (cfg : MCfg) (key ns : String) (m : MCState) :
    Res MCState (Bool × CacheVal) :=
  if m.isReadonly then
    if isSameAppCtx cfg m then
      match m.localCache with
      | none => .err (.attributeError "NoneType has no attribute get") m
      | some lc =>
        let p := ensureNsDict lc ns
        match alookup p.2 key with
        | some v =>
          .ok (true, v)
            { m with localCache := some p.1, cacheHitLocal := m.cacheHitLocal + 1 }
        | none =>
          .ok (false, .pyNone)
            { m with localCache := some p.1, cacheMissLocal := m.cacheMissLocal + 1 }
    else .err (.assertion "app context changed") m
  else .ok (false, .pyNone) m

/-- MemcacheManager._local_cache_put. -/
def localCachePut (cfg : MCfg) (key ns : String) (v : CacheVal) (m : MCState) :
    Res MCState Unit :=
  if m.isReadonly then
    if isSameAppCtx cfg m then
      match m.localCache with
      | none => .err (.attributeError "NoneType has no attribute get") m
      | some lc =>
        let p := ensureNsDict lc ns
        .ok ()
          { m with localCache := some (aInsert ns (aInsert key v p.2) p.1),
                   cachePutLocal := m.cachePutLocal + 1 }
    else .err (.assertion "app context changed") m
  else .ok () m

/-- Loop of _local_cache_get_multi: returns False with an empty list at the
first key not found in the local cache. -/
def localCacheGetMultiAux (cfg : MCfg) (ns : String) :
    List String → List CacheVal → MCState → Res MCState (Bool × List CacheVal)
  | [], acc, m => .ok (true, acc) m
  | k :: rest, acc, m =>
    match localCacheGet cfg k ns m with
    | .err e m1 => .err e m1
    | .ok r m1 =>
      if r.1 then localCacheGetMultiAux cfg ns rest (acc ++ [r.2]) m1
      else .ok (false, []) m1

/-- MemcacheManager._local_cache_get_multi. -/
def localCacheGetMulti (cfg : MCfg) (keys : List String) (ns : String)
    (m : MCState) : Res MCState (Bool × List CacheVal) :=
  if m.isReadonly then
    if isSameAppCtx cfg m then localCacheGetMultiAux cfg ns keys [] m
    else .err (.assertion "app context changed") m
  else .ok (false, []) m

/-- Loop of _local_cache_put_multi over values.items(). -/
def localCachePutMultiAux (cfg : MCfg) (ns : String) :
    List (String × CacheVal) → MCState → Res MCState Unit
  | [], m => .ok () m
  | (k, v) :: rest, m =>
    match localCachePut cfg k ns v m with
    | .err e m1 => .err e m1
    | .ok _ m1 => localCachePutMultiAux cfg ns rest m1

/-- MemcacheManager._local_cache_put_multi. -/
def localCachePutMulti (cfg : MCfg) (values : List (String × CacheVal))
    (ns : String) (m : MCState) : Res MCState Unit :=
  if m.isReadonly then
    if isSameAppCtx cfg m then localCachePutMultiAux cfg ns values m
    else .err (.assertion "app context changed") m
  else .ok () m

/-- MemcacheManager.get.  The external memcache client degrades a backend
outage on a read to a miss, never an exception (spec section 4.1), so a
failing backend yields None here. -/
def mmGet (cfg : MCfg) (key : String) (ns? : Option String) (m : MCState) :
    Res MCState CacheVal :=
  if cfg.canUse then
    let ns := resolveNs cfg ns?
    match localCacheGet cfg key ns m with
    | .err e m1 => .err e m1
    | .ok r m1 =>
      if r.1 then .ok r.2 m1
      else
        let v := if cfg.backendFails then CacheVal.pyNone else bGet m1.backend ns key
        let m2 := if v ≠ CacheVal.pyNone
                  then { m1 with cacheHit := m1.cacheHit + 1 }
                  else { m1 with cacheMiss := m1.cacheMiss + 1 }
        match localCachePut cfg key ns v m2 with
        | .err e m3 => .err e m3
        | .ok _ m3 => .ok v m3
  else .ok .pyNone m

/-- Result shape of MemcacheManager.get_multi: the snapshot full-hit path
returns the bare list of local-cache values, while the memcache path returns
the mapping of found keys. -/
inductive GMRes where
  | asList (l : List CacheVal)
  | asDict (d : List (String × CacheVal))
deriving DecidableEq, Repr

/-- Counter pass of get_multi over the values returned by memcache.get_multi. -/
def countHits : List (String × CacheVal) → MCState → MCState
  | [], m => m
  | (_, v) :: rest, m =>
    let m1 := if v ≠ CacheVal.pyNone then { m with cacheHit := m.cacheHit + 1 }
              else { m with cacheMiss := m.cacheMiss + 1 }
    countHits rest m1

/-- MemcacheManager.get_multi. -/
def mmGetMulti (cfg : MCfg) (keys : List String) (ns? : Option String)
    (m : MCState) : Res MCState GMRes :=
  if cfg.canUse then
    let ns := resolveNs cfg ns?
    match localCacheGetMulti cfg keys ns m with
    | .err e m1 => .err e m1
    | .ok r m1 =>
      if r.1 then .ok (.asList r.2) m1
      else
        let found := if cfg.backendFails then [] else bGetMulti m1.backend ns keys
        let m2 := countHits found m1
        match localCachePutMulti cfg found ns m2 with
        | .err e m3 => .err e m3
        | .ok _ m3 => .ok (.asDict found) m3
  else .ok (.asDict []) m

/-- Size ceiling for a single memcache value (models.py line 51). -/
def MEMCACHE_MAX : Nat := 1024 * 1024 - 96 - 250

/-- Size ceiling for a multi-write batch (models.py line 52). -/
def MEMCACHE_MULTI_MAX : Nat := 32 * 1024 * 1024

/-- Body of MemcacheManager.set inside its try block; the external
memcache.set raises on a transport failure, the TTL argument has no modelled
effect (expiry is external temporal behavior). -/
def mmSetInner (cfg : MCfg) (key : String) (v : CacheVal) (ns? : Option String)
    (m : MCState) : Res MCState Unit :=
  if cfg.canUse then
    if cfg.sizeOfVal v > MEMCACHE_MAX then
      .ok () { m with cachePutTooBig := m.cachePutTooBig + 1 }
    else
      let m1 := { m with cachePut := m.cachePut + 1 }
      let ns := resolveNs cfg ns?
      if cfg.backendFails then .err .backendErr m1
      else localCachePut cfg key ns v { m1 with backend := bInsert m1.backend ns key v }
  else .ok () m

/-- MemcacheManager.set: the bare except swallows every exception and returns
None, leaving the state where the exception left it. -/
def mmSet (cfg : MCfg) (key : String) (v : CacheVal) (ns? : Option String)
    (m : MCState) : MCState :=
  match mmSetInner cfg key v ns? m with
  | .ok _ m1 => m1
  | .err _ m1 => m1

/-- Batch size of set_multi: the summed sys.getsizeof of all keys and values. -/
def multiSize (cfg : MCfg) (mapping : List (String × CacheVal)) : Nat :=
  (mapping.map (fun p => cfg.sizeOfKey p.1 + cfg.sizeOfVal p.2)).sum

/-- Body of MemcacheManager.set_multi inside its try block. -/
def mmSetMultiInner (cfg : MCfg) (mapping : List (String × CacheVal))
    (ns? : Option String) (m : MCState) : Res MCState Unit :=
  if cfg.canUse then
    if mapping.isEmpty then .ok () m
    else
      if multiSize cfg mapping > MEMCACHE_MULTI_MAX then
        .ok () { m with cachePutTooBig := m.cachePutTooBig + 1 }
      else
        let m1 := { m with cachePut := m.cachePut + 1 }
        let ns := resolveNs cfg ns?
        if cfg.backendFails then .err .backendErr m1
        else
          let m2 := { m1 with
            backend := mapping.foldl (fun b p => bInsert b ns p.1 p.2) m1.backend }
          localCachePutMulti cfg mapping ns m2
  else .ok () m

/-- MemcacheManager.set_multi: the bare except swallows every exception. -/
def mmSetMulti (cfg : MCfg) (mapping : List (String × CacheVal))
    (ns? : Option String) (m : MCState) : MCState :=
  match mmSetMultiInner cfg mapping ns? m with
  | .ok _ m1 => m1
  | .err _ m1 => m1

/-- MemcacheManager.delete: asserts that no snapshot is active and has no
exception handler, so a raising backend propagates. -/
def mmDelete (cfg : MCfg) (key : String) (ns? : Option String) (m : MCState) :
    Res MCState Unit :=
  if m.isReadonly then .err (.assertion "delete during readonly") m
  else if cfg.canUse then
    let m1 := { m with cacheDelete := m.cacheDelete + 1 }
    if cfg.backendFails then .err .backendErr m1
    else .ok () { m1 with backend := bDelete m1.backend (resolveNs cfg ns?) key }
  else .ok () m

/-- MemcacheManager.delete_multi: like delete, no exception handler. -/
def mmDeleteMulti (cfg : MCfg) (keyList : List String) (ns? : Option String)
    (m : MCState) : Res MCState Unit :=
  if m.isReadonly then .err (.assertion "delete during readonly") m
  else if cfg.canUse then
    let m1 := { m with cacheDelete := m.cacheDelete + keyList.length }
    if cfg.backendFails then .err .backendErr m1
    else
      let ns := resolveNs cfg ns?
      .ok () { m1 with backend := keyList.foldl (fun b k => bDelete b ns k) m1.backend }
  else .ok () m

/-- MemcacheManager.incr: no exception handler; the external client increments
an integer value, starting from the initial value 0 when the key is absent, and
silently does nothing on a non-numeric value. -/
def mmIncr (cfg : MCfg) (key : String) (delta : Nat) (ns? : Option String)
    (m : MCState) : Res MCState Unit :=
  if cfg.canUse then
    if cfg.backendFails then .err .backendErr m
    else
      let ns := resolveNs cfg ns?
      match bLookup m.backend ns key with
      | some (.intVal n) =>
        .ok () { m with backend := bInsert m.backend ns key (.intVal (n + delta)) }
      | none => .ok () { m with backend := bInsert m.backend ns key (.intVal delta) }
      | some _ => .ok () m
  else .ok () m

/-- MemcacheManager.clear_readonly_cache: the unconditional emergency reset
(the fs read-only release is an external side effect on the owning context). -/
def clearReadonlyCache (m : MCState) : MCState :=
  { m with localCache := none, isReadonly := false, reentryCount := 0,
           appContext := none }

/-- MemcacheManager.begin_readonly.  A failed assertion clears the snapshot
state and raises. -/
def beginReadonly (cfg : MCfg) (m : MCState) : Res MCState Unit :=
  if 0 ≤ m.reentryCount then
    if isSameAppCtx cfg m then
      let m1 := if m.reentryCount = 0 then
          { m with isReadonly := true, localCache := some [],
                   appContext := cfg.currentCtx }
        else m
      .ok () { m1 with reentryCount := m1.reentryCount + 1 }
    else .err (.assertion "Unable to switch app_context.") (clearReadonlyCache m)
  else .err (.assertion "Re-entry counter is < 0.") (clearReadonlyCache m)

/-- MemcacheManager.end_readonly. -/
def endReadonly (cfg : MCfg) (m : MCState) : Res MCState Unit :=
  if 0 < m.reentryCount then
    if isSameAppCtx cfg m then
      let m1 := { m with reentryCount := m.reentryCount - 1 }
      if m1.reentryCount = 0 then
        .ok () { m1 with isReadonly := false, localCache := none, appContext := none }
      else .ok () m1
    else .err (.assertion "Unable to switch app_context.") (clearReadonlyCache m)
  else .err (.assertion "Re-entry counter <= 0.") (clearReadonlyCache m)

/-- The two ENTITY_KEY_TYPE strategies of BaseJsonDao. -/
inductive KType where
  | byId
  | byName
deriving DecidableEq, Repr

/-- Configuration of a BaseJsonDao subclass: the ENTITY kind tag, the
ENTITY_KEY_TYPE strategy and the registered POST_LOAD_HOOKS.  Hooks are
external functions that mutate each given DTO in place (e.g. i18n
translation); they are modelled per element. -/
structure DaoCfg where
  kind : String
  ktype : KType
  hooks : List (Dto → Dto)

/-- BaseJsonDao._memcache_key. -/
def memcacheKey (dao : DaoCfg) (objId : EId) : String :=
  "(entity:" ++ (dao.kind ++ (":" ++ (eidStr objId ++ ")")))

/-- BaseJsonDao._memcache_all_key. -/
def memcacheAllKey (dao : DaoCfg) : String :=
  "(entity-get-all:" ++ (dao.kind ++ ")")

/-- Combined state of the DAO layer: the MemcacheManager state, the backing
datastore content for the one entity kind (key to serialized blob), the
datastore auto-id allocator, a probe counting backing-store full scans, and
the log of post-load hook invocations (each entry records the DTO list one
hook was applied to). -/
structure DState where
  mc : MCState
  store : List (EId × String)
  nextId : Nat
  scans : Nat
  hookCalls : List (List Dto)
deriving Repr

/-- MemcacheManager.get as invoked by the DAO, which always leaves the
namespace argument at its default. -/
def dGet (cfg : MCfg) (key : String) (s : DState) : Res DState CacheVal :=
  match mmGet cfg key none s.mc with
  | .ok v m => .ok v { s with mc := m }
  | .err e m => .err e { s with mc := m }

/-- MemcacheManager.get_multi as invoked by the DAO. -/
def dGetMulti (cfg : MCfg) (keys : List String) (s : DState) : Res DState GMRes :=
  match mmGetMulti cfg keys none s.mc with
  | .ok v m => .ok v { s with mc := m }
  | .err e m => .err e { s with mc := m }

/-- MemcacheManager.set as invoked by the DAO. -/
def dSet (cfg : MCfg) (key : String) (v : CacheVal) (s : DState) : DState :=
  { s with mc := mmSet cfg key v none s.mc }

/-- MemcacheManager.set_multi as invoked by the DAO. -/
def dSetMulti (cfg : MCfg) (mapping : List (String × CacheVal)) (s : DState) :
    DState :=
  { s with mc := mmSetMulti cfg mapping none s.mc }

/-- MemcacheManager.delete as invoked by the DAO. -/
def dDelete (cfg : MCfg) (key : String) (s : DState) : Res DState Unit :=
  match mmDelete cfg key none s.mc with
  | .ok _ m => .ok () { s with mc := m }
  | .err e m => .err e { s with mc := m }

/-- Python int() applied to a datastore id, as in
EntityKeyTypeId.get_entity_by_key; a non-numeric string raises ValueError. -/
def intOfId : EId → Option Nat
  | .num n => some n
  | .name s => s.toNat?

/-- ENTITY_KEY_TYPE.get_entity_by_key against the backing store: get_by_id for
the numeric strategy, get_by_key_name for the name strategy.  The external
get_by_key_name finds nothing for a non-string key. -/
def getEntityByKey (dao : DaoCfg) (store : List (EId × String)) (objId : EId) :
    Except Err (Option Ent) :=
  match dao.ktype with
  | .byId =>
    match intOfId objId with
    | none => .error (.valueError "invalid literal for int()")
    | some n => .ok ((alookup store (.num n)).map (fun d => ⟨some (.num n), d⟩))
  | .byName =>
    match objId with
    | .name s => .ok ((alookup store (.name s)).map (fun d => ⟨some (.name s), d⟩))
    | .num _ => .ok none

/-- ENTITY_KEY_TYPE.new_entity: a fresh entity whose numeric id is assigned at
first put, or one constructed under the caller-supplied key name.  The external
entity constructor rejects a non-string key_name; key_name None behaves as an
auto-id entity. -/
def newEntity (dao : DaoCfg) (key? : Option EId) : Except Err Ent :=
  match dao.ktype with
  | .byId => .ok ⟨none, ""⟩
  | .byName =>
    match key? with
    | some (.name s) => .ok ⟨some (.name s), ""⟩
    | some (.num _) => .error (.valueError "name should be a string")
    | none => .ok ⟨none, ""⟩

/-- BaseJsonDao._load_entity.  The value it returns is whatever the cache or
store produced (pyNone models the Python None returns). -/
def loadEntity (cfg : MCfg) (dao : DaoCfg) (objId : Option EId) (s : DState) :
    Res DState CacheVal :=
  match objId with
  | none => .ok .pyNone s
  | some oid =>
    if eidTruthy oid then
      let k := memcacheKey dao oid
      match dGet cfg k s with
      | .err e s1 => .err e s1
      | .ok v s1 =>
        if pyEqNoObject v then .ok .pyNone s1
        else if pyTruthy v then .ok v s1
        else
          match getEntityByKey dao s1.store oid with
          | .error e => .err e s1
          | .ok (some ent) => .ok (.entity ent) (dSet cfg k (.entity ent) s1)
          | .ok none => .ok .pyNone (dSet cfg k .noObject s1)
    else .ok .pyNone s

/-- Chain application of the registered hooks to one DTO: the in-place
mutations one DTO object undergoes across the POST_LOAD_HOOKS list. -/
def applyChain (hooks : List (Dto → Dto)) (d : Dto) : Dto :=
  hooks.foldl (fun x f => f x) d

/-- BaseJsonDao._maybe_apply_post_hooks: run every registered hook over the
list, logging each invocation with the list it was handed. -/
def runHooks : List (Dto → Dto) → List Dto → List Dto × List (List Dto)
  | [], l => (l, [])
  | f :: fs, l =>
    let l1 := l.map f
    let p := runHooks fs l1
    (p.1, l :: p.2)

/-- _maybe_apply_post_hooks with the invocation log threaded into the state. -/
def applyPostHooks (dao : DaoCfg) (dtos : List Dto) (s : DState) :
    List Dto × DState :=
  let p := runHooks dao.hooks dtos
  (p.1, { s with hookCalls := s.hookCalls ++ p.2 })

/-- BaseJsonDao.load.  The returned DTO is the one object the hooks mutated in
place, i.e. the chain application over the freshly built DTO. -/
def daoLoad (cfg : MCfg) (dao : DaoCfg) (objId : Option EId) (s : DState) :
    Res DState (Option Dto) :=
  match loadEntity cfg dao objId s with
  | .err e s1 => .err e s1
  | .ok v s1 =>
    if pyTruthy v then
      match v with
      | .entity e =>
        let dto : Dto := ⟨objId, e.data⟩
        let p := applyPostHooks dao [dto] s1
        .ok (some (applyChain dao.hooks dto)) p.2
      | _ => .err (.attributeError "no attribute data") s1
    else .ok none s1

/-- BaseJsonDao.get_all_iter: the cursor-paged full scan of the backing store
through the external query interface, which pages until a page yields no
records; modelled as one full enumeration of the store, counted once by the
scans probe. -/
def getAllIter (s : DState) : List Dto × DState :=
  (s.store.map (fun p => ⟨some p.1, p.2⟩), { s with scans := s.scans + 1 })

/-- BaseJsonDao.get_all_mapped.  On a cache hit the cached object itself is
returned; on a miss the id-to-DTO dict is built from a full scan, cached
(as NO_OBJECT when empty) and returned. -/
def getAllMapped (cfg : MCfg) (dao : DaoCfg) (s : DState) : Res DState CacheVal :=
  match dGet cfg (memcacheAllKey dao) s with
  | .err e s1 => .err e s1
  | .ok v s1 =>
    if v ≠ CacheVal.pyNone ∧ pyEqNoObject v = false then .ok v s1
    else
      let p := getAllIter s1
      let result := p.1.foldl (fun acc dto => aInsert dto.id dto acc) []
      let resultToCache := if result.isEmpty then CacheVal.noObject
                           else CacheVal.aggregate result
      let s3 := dSet cfg (memcacheAllKey dao) resultToCache p.2
      .ok (.aggregate result) s3

/-- BaseJsonDao.get_all: the values() of get_all_mapped; values() on an object
that is not a mapping raises AttributeError. -/
def getAll (cfg : MCfg) (dao : DaoCfg) (s : DState) : Res DState (List Dto) :=
  match getAllMapped cfg dao s with
  | .err e s1 => .err e s1
  | .ok v s1 =>
    match v with
    | .aggregate m => .ok (m.map (fun p => p.2)) s1
    | _ => .err (.attributeError "no attribute values") s1

/-- Membership test of the Python in operator on a get_multi result: key
membership for the mapping shape; for the list shape it compares the key with
the cached values, which are never strings, hence always false. -/
def gmContains (gm : GMRes) (k : String) : Bool :=
  match gm with
  | .asDict d => (alookup d k).isSome
  | .asList _ => false

/-- Indexing memcache_entities with a key; only reached under gmContains. -/
def gmIndex (gm : GMRes) (k : String) : CacheVal :=
  match gm with
  | .asDict d => (alookup d k).getD .pyNone
  | .asList _ => .pyNone

/-- One iteration of the weave loop of BaseJsonDao.bulk_load for one id and
its memcache key: the output slot (flagged when the DTO is store-fresh, since
the post hooks will mutate exactly those in place), the memcache_update
assignment, and the entry for the post-hook list. -/
def weaveStep (dsDict : List (EId × Option Ent)) (gm : GMRes) (oid : EId)
    (k : String) :
    Except Err ((Option Dto × Bool) × Option (String × CacheVal) × Option Dto) :=
  match (alookup dsDict oid).join with
  | some e =>
    let dto : Dto := ⟨some oid, e.data⟩
    .ok ((some dto, true), some (k, .entity e), some dto)
  | none =>
    if gmContains gm k then
      let v := gmIndex gm k
      if pyEqNoObject v then .ok ((none, false), none, none)
      else
        match v with
        | .entity e => .ok ((some ⟨some oid, e.data⟩, false), none, none)
        | _ => .error (.attributeError "no attribute data")
    else .ok ((none, false), some (k, .noObject), none)

/-- The weave loop of bulk_load over all (id, key) pairs, collecting the
output slots, the memcache_update assignments in loop order, and the DTO list
for the post hooks. -/
def weaveAll (dsDict : List (EId × Option Ent)) (gm : GMRes) :
    List (EId × String) →
    Except Err (List (Option Dto × Bool) × List (String × CacheVal) × List Dto)
  | [] => .ok ([], [], [])
  | (oid, k) :: rest =>
    match weaveStep dsDict gm oid k with
    | .error e => .error e
    | .ok (slot, upd?, fresh?) =>
      match weaveAll dsDict gm rest with
      | .error e => .error e
      | .ok (slots, upds, freshes) =>
        .ok (slot :: slots,
             (match upd? with | some u => u :: upds | none => upds),
             (match fresh? with | some d => d :: freshes | none => freshes))

/-- BaseJsonDao.bulk_load. -/
def bulkLoad (cfg : MCfg) (dao : DaoCfg) (ids : List EId) (s : DState) :
    Res DState (List (Option Dto)) :=
  let keys := ids.map (memcacheKey dao)
  match dGetMulti cfg keys s with
  | .err e s1 => .err e s1
  | .ok gm s1 =>
    let bothKeys := ids.zip keys
    let datastoreKeys := bothKeys.filterMap
        (fun p => if gmContains gm p.2 then none else some p.1)
    let dsDict : List (EId × Option Ent) :=
      datastoreKeys.map
        (fun oid => (oid, (alookup s1.store oid).map (fun d => ⟨some oid, d⟩)))
    match weaveAll dsDict gm bothKeys with
    | .error e => .err e s1
    | .ok (slots, upds, freshes) =>
      let p := applyPostHooks dao freshes s1
      let update := upds.foldl (fun acc q => aInsert q.1 q.2 acc) []
      let s3 := if dsDict.isEmpty then p.2 else dSetMulti cfg update p.2
      let ret := slots.map
          (fun q => if q.2 then q.1.map (applyChain dao.hooks) else q.1)
      .ok ret s3

/-- BaseJsonDao._create_if_necessary: load or create the backing entity and
serialize the DTO payload into its data blob. -/
def createIfNecessary (cfg : MCfg) (dao : DaoCfg) (dto : Dto) (s : DState) :
    Res DState Ent :=
  match loadEntity cfg dao dto.id s with
  | .err e s1 => .err e s1
  | .ok v s1 =>
    if pyTruthy v then
      match v with
      | .entity e => .ok { e with data := dto.dict } s1
      | _ => .err (.attributeError "cannot set attribute data") s1
    else
      match newEntity dao dto.id with
      | .error e => .err e s1
      | .ok e => .ok { e with data := dto.dict } s1

/-- db put of one entity: a numeric auto-id is assigned at first put; returns
the key, the entity as mutated by put, and the new state. -/
def entPut (e : Ent) (s : DState) : EId × Ent × DState :=
  match e.key with
  | some k => (k, e, { s with store := aInsert k e.data s.store })
  | none =>
    let k := EId.num s.nextId
    (k, { e with key := some k },
     { s with store := aInsert k e.data s.store, nextId := s.nextId + 1 })

/-- db.put of a batch of entities: keys are returned aligned with the input. -/
def entPutAll : List Ent → DState → List EId × DState
  | [], s => ([], s)
  | e :: rest, s =>
    let p := entPut e s
    let q := entPutAll rest p.2.2
    (p.1 :: q.1, q.2)

/-- BaseJsonDao.save (before_put of the base class is a no-op). -/
def daoSave (cfg : MCfg) (dao : DaoCfg) (dto : Dto) (s : DState) :
    Res DState EId :=
  match createIfNecessary cfg dao dto s with
  | .err e s1 => .err e s1
  | .ok ent s1 =>
    let p := entPut ent s1
    match dDelete cfg (memcacheAllKey dao) p.2.2 with
    | .err e s3 => .err e s3
    | .ok _ s3 =>
      let s4 := dSet cfg (memcacheKey dao p.1) (.entity p.2.1) s3
      .ok p.1 s4

/-- Build loop of save_all: _create_if_necessary plus the no-op before_put for
each DTO, in input order. -/
def buildAll (cfg : MCfg) (dao : DaoCfg) : List Dto → DState → Res DState (List Ent)
  | [], s => .ok [] s
  | dto :: rest, s =>
    match createIfNecessary cfg dao dto s with
    | .err e s1 => .err e s1
    | .ok e s1 =>
      match buildAll cfg dao rest s1 with
      | .err er s2 => .err er s2
      | .ok es s2 => .ok (e :: es) s2

/-- Python key.id(): the numeric id, or None for a name-keyed record. -/
def eidId : EId → Option Nat
  | .num n => some n
  | .name _ => none

/-- Republish loop of save_all over zip(keys, entities). -/
def setAllSingles (cfg : MCfg) (dao : DaoCfg) :
    List (EId × Ent) → DState → DState
  | [], s => s
  | (k, e) :: rest, s =>
    setAllSingles cfg dao rest (dSet cfg (memcacheKey dao k) (.entity ⟨some k, e.data⟩) s)

/-- BaseJsonDao.save_all.  Note the return expression of the source uses
key.id(), not key.id_or_name(). -/
def daoSaveAll (cfg : MCfg) (dao : DaoCfg) (dtos : List Dto) (s : DState) :
    Res DState (List (Option Nat)) :=
  match buildAll cfg dao dtos s with
  | .err e s1 => .err e s1
  | .ok ents s1 =>
    let p := entPutAll ents s1
    match dDelete cfg (memcacheAllKey dao) p.2 with
    | .err e s3 => .err e s3
    | .ok _ s3 =>
      let s4 := setAllSingles cfg dao (p.1.zip ents) s3
      .ok (p.1.map eidId) s4

/-- BaseJsonDao.delete: loads the backing entity (entity.delete() on None or a
non-entity raises AttributeError, and the external delete of an unsaved entity
raises), removes it from the store, then deletes both cache entries. -/
def daoDelete (cfg : MCfg) (dao : DaoCfg) (dto : Dto) (s : DState) :
    Res DState Unit :=
  match loadEntity cfg dao dto.id s with
  | .err e s1 => .err e s1
  | .ok v s1 =>
    match v with
    | .entity e =>
      match e.key with
      | none => .err (.valueError "unsaved entity") s1
      | some k =>
        let s2 := { s1 with store := aErase k s1.store }
        match dDelete cfg (memcacheAllKey dao) s2 with
        | .err er s3 => .err er s3
        | .ok _ s3 =>
          match dDelete cfg (memcacheKey dao k) s3 with
          | .err er s4 => .err er s4
          | .ok _ s4 => .ok () s4
    | _ => .err (.attributeError "no attribute delete") s1

/-- The three snapshot lifecycle calls a unit of work can make. -/
inductive SnapOp where
  | beginR
  | endR
  | clearR
deriving DecidableEq, Repr

/-- Call environment of a snapshot lifecycle call: only the application
context of the calling request matters to these three operations. -/
def snapCfg (c : Option Nat) : MCfg :=
  { canUse := true, sizeOfKey := fun _ => 0, sizeOfVal := fun _ => 0,
    backendFails := false, currentNs := "ns", currentCtx := c }

/-- One lifecycle call: a raised AssertionError propagates to the caller but
the class-level state remains whatever the call left behind. -/
def snapStep (m : MCState) : SnapOp × Option Nat → MCState
  | (.beginR, c) => (beginReadonly (snapCfg c) m).stateOf
  | (.endR, c) => (endReadonly (snapCfg c) m).stateOf
  | (.clearR, _) => clearReadonlyCache m

/-- Run a sequence of lifecycle calls from the initial process state. -/
def runSnap (ops : List (SnapOp × Option Nat)) : MCState :=
  ops.foldl snapStep initMCState

/-- The snapshot session invariant of spec section 3: the local map is
non-null iff the session is active, the reentry count is nonnegative, and the
session is active exactly while the count is positive (so teardown happens
exactly when it returns to 0). -/
def snapInv (m : MCState) : Prop :=
  m.localCache.isSome = m.isReadonly ∧ 0 ≤ m.reentryCount ∧
    (m.isReadonly = true ↔ 0 < m.reentryCount)

/-- Benign call environment shared by the concrete scenarios: caching enabled,
reliable backend, zero measured sizes, current namespace ns, no application
context. -/
def cfgB : MCfg :=
  { canUse := true, sizeOfKey := fun _ => 0, sizeOfVal := fun _ => 0,
    backendFails := false, currentNs := "ns", currentCtx := none }

/-- A numeric-key DAO for an entity kind Q with no registered hooks. -/
def daoQ : DaoCfg := { kind := "Q", ktype := .byId, hooks := [] }

/-- A name-key DAO for the same kind. -/
def daoN : DaoCfg := { kind := "Q", ktype := .byName, hooks := [] }

/-- A fresh DAO-layer state over the initial process state and an empty store. -/
def dInit : DState :=
  { mc := initMCState, store := [], nextId := 1, scans := 0, hookCalls := [] }

/-- State for C1: the single-record cache key of id 1 holds an empty dict that
is a different object from the NO_OBJECT sentinel, while the backing store
does hold the record. -/
def c1State : DState :=
  { mc := { initMCState with
      backend := [(("ns", memcacheKey daoQ (.num 1)), .emptyDict)] },
    store := [(.num 1, "payload")], nextId := 1, scans := 0, hookCalls := [] }

/-- First get_all call of C3 on an empty kind with a cold cache. -/
def c3First : Res DState (List Dto) := getAll cfgB daoQ dInit

/-- Second get_all call of C3, from the state the first one left. -/
def c3Second : Res DState (List Dto) := getAll cfgB daoQ c3First.stateOf

/-- State for C7: a snapshot is active and the requested key is present in the
local snapshot map. -/
def c7Local : LocalMap :=
  [("ns", [("k", CacheVal.entity (Ent.mk (some (EId.num 1)) "d"))])]

def c7State : MCState :=
  { initMCState with
    isReadonly := true, reentryCount := 1, localCache := some c7Local }

/-- The name-keyed DTO of C9. -/
def c9Dto : Dto := ⟨some (.name "foo"), "p"⟩

/-- The benign environment with a backend that raises transport failures on
writes. -/
def cfgFail : MCfg := { cfgB with backendFails := true }

/-- An environment whose size measure exceeds both ceilings. -/
def cfgBig : MCfg :=
  { cfgB with sizeOfVal := fun _ => MEMCACHE_MAX + 1,
              sizeOfKey := fun _ => MEMCACHE_MULTI_MAX + 1 }

/-- The get_multi result bulk_load sees under benign conditions, from the
pre-call backend. -/
def gmOf (b : Backend) (ns : String) (dao : DaoCfg) (ids : List EId) : GMRes :=
  .asDict (bGetMulti b ns (ids.map (memcacheKey dao)))

/-- The datastore_keys list of bulk_load, from the pre-call backend. -/
def dsKeysOf (b : Backend) (ns : String) (dao : DaoCfg) (ids : List EId) :
    List EId :=
  (ids.map (fun i => (i, memcacheKey dao i))).filterMap
    (fun p => if gmContains (gmOf b ns dao ids) p.2 then none else some p.1)

/-- The datastore_entities dict of bulk_load, from the pre-call backend and
store. -/
def dsDictOf (b : Backend) (ns : String) (dao : DaoCfg)
    (st : List (EId × String)) (ids : List EId) : List (EId × Option Ent) :=
  (dsKeysOf b ns dao ids).map
    (fun oid => (oid, (alookup st oid).map (fun d => ⟨some oid, d⟩)))

/-- Predicted weave output slot for one id, read off the pre-call backend and
store: a cached entity is served from the cache, a cached Absent marker yields
nil, an uncached id is fetched from the store (store-fresh when found, nil
with a negative-cache write when not). -/
def predSlot (b : Backend) (ns : String) (dao : DaoCfg)
    (st : List (EId × String)) (oid : EId) : Option Dto × Bool :=
  match bLookup b ns (memcacheKey dao oid) with
  | some (.entity e) => (some ⟨some oid, e.data⟩, false)
  | some _ => (none, false)
  | none =>
    match alookup st oid with
    | some d => (some ⟨some oid, d⟩, true)
    | none => (none, false)

/-- Predicted memcache_update assignment for one id. -/
def predUpd (b : Backend) (ns : String) (dao : DaoCfg)
    (st : List (EId × String)) (oid : EId) : Option (String × CacheVal) :=
  match bLookup b ns (memcacheKey dao oid) with
  | some _ => none
  | none =>
    match alookup st oid with
    | some d => some (memcacheKey dao oid, .entity ⟨some oid, d⟩)
    | none => some (memcacheKey dao oid, .noObject)

/-- Predicted post-hook entry for one id: only DTOs freshly loaded from the
backing store, never ones served from the cache. -/
def predFresh (b : Backend) (ns : String) (dao : DaoCfg)
    (st : List (EId × String)) (oid : EId) : Option Dto :=
  match bLookup b ns (memcacheKey dao oid) with
  | some _ => none
  | none => (alookup st oid).map (fun d => ⟨some oid, d⟩)

/-- Well-formedness of the single-record cache entries for the given ids: an
entity key holds nothing, the Absent sentinel, or a datastore entity (the only
values the DAO layer ever writes there). -/
def wfEntityCache (b : Backend) (ns : String) (dao : DaoCfg) (ids : List EId) :
    Prop :=
  ∀ oid ∈ ids,
    bLookup b ns (memcacheKey dao oid) = none
    ∨ bLookup b ns (memcacheKey dao oid) = some CacheVal.noObject
    ∨ ∃ e, bLookup b ns (memcacheKey dao oid) = some (CacheVal.entity e)

/-- The state bulk_load leaves behind under benign conditions, predicted from
the pre-call state: counters bumped, the hook log extended by the invocations
on the store-fresh DTOs, and (when any id missed the cache) the
memcache_update dict committed through set_multi. -/
def bulkFinal (cfg : MCfg) (dao : DaoCfg) (ids : List EId) (s : DState) :
    DState :=
  let b := s.mc.backend
  let ns := cfg.currentNs
  let st := s.store
  let s2 : DState :=
    { s with mc := countHits (bGetMulti b ns (ids.map (memcacheKey dao))) s.mc,
             hookCalls := s.hookCalls
               ++ (runHooks dao.hooks (ids.filterMap (predFresh b ns dao st))).2 }
  if (dsDictOf b ns dao st ids).isEmpty then s2
  else dSetMulti cfg
    ((ids.filterMap (predUpd b ns dao st)).foldl
      (fun acc q => aInsert q.1 q.2 acc) []) s2

/-- Cache and store state for the C4 witness: id 2 negative-cached, id 3
cached as an entity, id 1 only in the store, id 4 nowhere. -/
def c4State : DState :=
  { mc := { initMCState with backend := [
      (("ns", memcacheKey daoQ (.num 2)), CacheVal.noObject),
      (("ns", memcacheKey daoQ (.num 3)),
        CacheVal.entity ⟨some (.num 3), "c"⟩)] },
    store := [(.num 1, "a")], nextId := 1, scans := 0, hookCalls := [] }

def c4Ids : List EId := [.num 1, .num 2, .num 3, .num 4]

/-- A concrete post-load hook with a visible effect, for the C8 scenario. -/
def hk8 : Dto → Dto := fun d => ⟨d.id, d.dict ++ "!"⟩

/-- A numeric-key DAO with hk8 registered. -/
def dao8 : DaoCfg := { kind := "Q", ktype := .byId, hooks := [hk8] }

/-- State for the C8 counterexample: the entity of id 1 is cached and the
backing store is empty, so a singleton load is served purely from the cache. -/
def c8State : DState :=
  { mc := { initMCState with backend := [(("ns", memcacheKey dao8 (.num 1)),
      CacheVal.entity ⟨some (.num 1), "d"⟩)] },
    store := [], nextId := 1, scans := 0, hookCalls := [] }

lemma snapStep_inv (m : MCState) (op : SnapOp × Option Nat) (h : snapInv m) :
    snapInv (snapStep m op) := by
  obtain ⟨h1, h2, h3⟩ := h
  obtain ⟨o, c⟩ := op
  cases o with
  | beginR =>
    by_cases hge : 0 ≤ m.reentryCount
    · by_cases hctx : isSameAppCtx (snapCfg c) m = true
      · by_cases hc0 : m.reentryCount = 0
        · simp [snapStep, beginReadonly, hge, hctx, hc0, Res.stateOf, snapInv]
        · have hpos : 0 < m.reentryCount := by omega
          have hro : m.isReadonly = true := h3.mpr hpos
          simp only [snapStep, beginReadonly, if_pos hge, if_pos hctx, if_neg hc0,
            Res.stateOf, snapInv]
          refine ⟨h1, by omega, ?_⟩
          simp [hro]
          omega
      · simp [snapStep, beginReadonly, hge, hctx, Res.stateOf, snapInv,
          clearReadonlyCache]
    · simp [snapStep, beginReadonly, hge, Res.stateOf, snapInv, clearReadonlyCache]
  | endR =>
    by_cases hpos : 0 < m.reentryCount
    · by_cases hctx : isSameAppCtx (snapCfg c) m = true
      · have hro : m.isReadonly = true := h3.mpr hpos
        by_cases hc0 : m.reentryCount - 1 = 0
        · simp [snapStep, endReadonly, hpos, hctx, hc0, Res.stateOf, snapInv]
        · simp only [snapStep, endReadonly, if_pos hpos, if_pos hctx, if_neg hc0,
            Res.stateOf, snapInv]
          refine ⟨h1, by omega, ?_⟩
          simp [hro]
          omega
      · simp [snapStep, endReadonly, hpos, hctx, Res.stateOf, snapInv,
          clearReadonlyCache]
    · simp [snapStep, endReadonly, hpos, Res.stateOf, snapInv, clearReadonlyCache]
  | clearR =>
    simp [snapStep, snapInv, clearReadonlyCache]

lemma runSnap_aux_inv (ops : List (SnapOp × Option Nat)) :
    ∀ m, snapInv m → snapInv (ops.foldl snapStep m) := by
  induction ops with
  | nil => intro m h; exact h
  | cons op rest ih =>
    intro m h
    exact ih (snapStep m op) (snapStep_inv m op h)

/-- C2: the snapshot session preserves its invariant under every sequence of
begin_readonly/end_readonly/clear_readonly_cache calls from the initial state
(local map non-null iff active, reentry count nonnegative, teardown exactly at
count 0); begin, begin, end leaves the snapshot active; after balancing a
further end_readonly with no matching begin raises an AssertionError and
leaves no residual local-cache state. -/
theorem c2_snapshot_invariant :
    (∀ ops : List (SnapOp × Option Nat), snapInv (runSnap ops))
    ∧ (runSnap [(.beginR, none), (.beginR, none), (.endR, none)]).isReadonly = true
    ∧ (runSnap [(.beginR, none), (.beginR, none), (.endR, none)]).localCache.isSome
        = true
    ∧ runSnap [(.beginR, none), (.beginR, none), (.endR, none), (.endR, none)]
        = initMCState
    ∧ endReadonly (snapCfg none) initMCState
        = .err (.assertion "Re-entry counter <= 0.") initMCState
    ∧ initMCState.localCache = none ∧ initMCState.isReadonly = false
    ∧ initMCState.reentryCount = 0 := by
  refine ⟨fun ops => runSnap_aux_inv ops initMCState (by simp [snapInv, initMCState]),
    ?_, ?_, ?_, ?_, rfl, rfl, rfl⟩
  · rfl
  · rfl
  · rfl
  · rfl

section ListLemmas

variable {κ ν : Type} [DecidableEq κ]

lemma alookup_aInsert_self (l : List (κ × ν)) (k : κ) (v : ν) :
    alookup (aInsert k v l) k = some v := by
  induction l with
  | nil => simp [aInsert, alookup]
  | cons p t ih =>
    obtain ⟨k1, v1⟩ := p
    by_cases h : k1 = k
    · simp [aInsert, h, alookup]
    · simp [aInsert, h, alookup, Ne.symm h, ih]

lemma alookup_aInsert_ne (l : List (κ × ν)) (k q : κ) (v : ν) (h : q ≠ k) :
    alookup (aInsert k v l) q = alookup l q := by
  induction l with
  | nil => simp [aInsert, alookup, h]
  | cons p t ih =>
    obtain ⟨k1, v1⟩ := p
    by_cases h1 : k1 = k
    · subst h1
      simp [aInsert, alookup, h]
    · by_cases h2 : q = k1
      · simp [aInsert, h1, alookup, h2]
      · simp [aInsert, h1, alookup, h2, ih]

lemma alookup_map_self (l : List κ) (f : κ → ν) (q : κ) :
    alookup (l.map (fun o => (o, f o))) q = if q ∈ l then some (f q) else none := by
  induction l with
  | nil => simp [alookup]
  | cons a t ih =>
    by_cases h : q = a
    · subst h
      simp [alookup]
    · simp [alookup, h, ih, Ne.symm h]

lemma alookup_foldl_aInsert (entries : List (κ × ν)) (k : κ) (v : ν) :
    ∀ acc : List (κ × ν),
      (∀ p ∈ entries, p.1 = k → p.2 = v) →
      ((∃ p ∈ entries, p.1 = k) ∨ alookup acc k = some v) →
      alookup (entries.foldl (fun a p => aInsert p.1 p.2 a) acc) k = some v := by
  induction entries with
  | nil =>
    intro acc _ hex
    rcases hex with ⟨p, hp, _⟩ | h
    · cases hp
    · simpa using h
  | cons q t ih =>
    intro acc hall hex
    simp only [List.foldl_cons]
    by_cases hq : q.1 = k
    · refine ih (aInsert q.1 q.2 acc) (fun p hp => hall p (List.mem_cons_of_mem q hp)) ?_
      right
      rw [hq, hall q (List.mem_cons_self q t) hq]
      exact alookup_aInsert_self acc k v
    · refine ih (aInsert q.1 q.2 acc) (fun p hp => hall p (List.mem_cons_of_mem q hp)) ?_
      rcases hex with ⟨p, hp, hpk⟩ | h
      · rcases List.mem_cons.mp hp with h1 | h1
        · subst h1; exact absurd hpk hq
        · exact Or.inl ⟨p, h1, hpk⟩
      · right
        rw [alookup_aInsert_ne acc q.1 k q.2 (fun he => hq he.symm)]
        exact h

lemma mem_aInsert_dest (l : List (κ × ν)) (k : κ) (v : ν) (p : κ × ν)
    (h : p ∈ aInsert k v l) : p = (k, v) ∨ p ∈ l := by
  induction l with
  | nil => simpa [aInsert] using h
  | cons q t ih =>
    obtain ⟨qk, qv⟩ := q
    by_cases h1 : qk = k
    · simp only [aInsert, if_pos h1] at h
      rcases List.mem_cons.mp h with h2 | h2
      · exact Or.inl h2
      · exact Or.inr (List.mem_cons_of_mem _ h2)
    · simp only [aInsert, if_neg h1] at h
      rcases List.mem_cons.mp h with h2 | h2
      · exact Or.inr (h2 ▸ List.mem_cons_self _ t)
      · rcases ih h2 with h3 | h3
        · exact Or.inl h3
        · exact Or.inr (List.mem_cons_of_mem _ h3)

lemma mem_foldl_aInsert (entries : List (κ × ν)) :
    ∀ acc p, p ∈ entries.foldl (fun a q => aInsert q.1 q.2 a) acc →
      p ∈ entries ∨ p ∈ acc := by
  induction entries with
  | nil => intro acc p h; exact Or.inr h
  | cons q t ih =>
    intro acc p h
    simp only [List.foldl_cons] at h
    rcases ih (aInsert q.1 q.2 acc) p h with h1 | h1
    · exact Or.inl (List.mem_cons_of_mem q h1)
    · rcases mem_aInsert_dest acc q.1 q.2 p h1 with h2 | h2
      · left
        rw [h2]
        obtain ⟨qk, qv⟩ := q
        exact List.mem_cons_self _ t
      · exact Or.inr h2

end ListLemmas

lemma mem_filterMap_pair {κ ν : Type} (l : List κ) (f : κ → ν) (g : ν → Bool) (q : κ) :
    (q ∈ (l.map (fun a => (a, f a))).filterMap
        (fun p => if g p.2 then none else some p.1))
      ↔ q ∈ l ∧ g (f q) = false := by
  rw [List.mem_filterMap]
  constructor
  · rintro ⟨p, hp, hpq⟩
    rw [List.mem_map] at hp
    obtain ⟨a, ha, rfl⟩ := hp
    by_cases hg : g (f a) = true
    · simp [hg] at hpq
    · simp only [if_neg hg] at hpq
      obtain rfl := Option.some.inj hpq
      exact ⟨ha, Bool.not_eq_true _ ▸ hg⟩
  · rintro ⟨hq, hg⟩
    refine ⟨(q, f q), List.mem_map.mpr ⟨q, hq, rfl⟩, ?_⟩
    simp [hg]

lemma zip_map_self {κ ν : Type} (l : List κ) (f : κ → ν) :
    l.zip (l.map f) = l.map (fun a => (a, f a)) := by
  induction l with
  | nil => rfl
  | cons a t ih => simp [ih]

lemma bLookup_bInsert (b : Backend) (ns k ns1 k1 : String) (v : CacheVal) :
    bLookup (bInsert b ns k v) ns1 k1
      = if (ns1, k1) = (ns, k) then some v else bLookup b ns1 k1 := by
  by_cases h : (ns1, k1) = (ns, k)
  · rw [if_pos h, bLookup, bInsert, h, alookup_aInsert_self]
  · rw [if_neg h, bLookup, bInsert, alookup_aInsert_ne _ _ _ _ h, bLookup]

lemma alookup_bGetMulti_not_mem (b : Backend) (ns : String) (keys : List String)
    (k : String) (hk : k ∉ keys) :
    alookup (bGetMulti b ns keys) k = none := by
  induction keys with
  | nil => rfl
  | cons a t ih =>
    simp only [List.mem_cons, not_or] at hk
    cases hv : bLookup b ns a with
    | none =>
      simp only [bGetMulti, List.filterMap_cons, hv, Option.map_none']
      exact ih hk.2
    | some v =>
      simp only [bGetMulti, List.filterMap_cons, hv, Option.map_some']
      rw [alookup, if_neg hk.1]
      exact ih hk.2

lemma alookup_bGetMulti (b : Backend) (ns : String) (keys : List String)
    (k : String) (hk : k ∈ keys) :
    alookup (bGetMulti b ns keys) k = bLookup b ns k := by
  induction keys with
  | nil => cases hk
  | cons a t ih =>
    by_cases h : k = a
    · subst h
      cases hv : bLookup b ns k with
      | none =>
        simp only [bGetMulti, List.filterMap_cons, hv, Option.map_none']
        by_cases hkt : k ∈ t
        · exact (ih hkt).trans hv
        · exact alookup_bGetMulti_not_mem b ns t k hkt
      | some v =>
        simp [bGetMulti, List.filterMap_cons, hv, alookup]
    · have h1 : k ∈ t := by
        rcases List.mem_cons.mp hk with h2 | h2
        · exact absurd h2 h
        · exact h2
      cases hv : bLookup b ns a with
      | none =>
        simp only [bGetMulti, List.filterMap_cons, hv, Option.map_none']
        exact ih h1
      | some v =>
        simp only [bGetMulti, List.filterMap_cons, hv, Option.map_some']
        rw [alookup, if_neg h]
        exact ih h1

section BenignFacade

variable (cfg : MCfg) (m : MCState)

lemma localCacheGet_not_readonly (k ns : String) (hro : m.isReadonly = false) :
    localCacheGet cfg k ns m = .ok (false, .pyNone) m := by
  simp [localCacheGet, hro]

lemma localCachePut_not_readonly (k ns : String) (v : CacheVal)
    (hro : m.isReadonly = false) :
    localCachePut cfg k ns v m = .ok () m := by
  simp [localCachePut, hro]

lemma localCacheGetMulti_not_readonly (keys : List String) (ns : String)
    (hro : m.isReadonly = false) :
    localCacheGetMulti cfg keys ns m = .ok (false, []) m := by
  simp [localCacheGetMulti, hro]

lemma localCachePutMulti_not_readonly (values : List (String × CacheVal))
    (ns : String) (hro : m.isReadonly = false) :
    localCachePutMulti cfg values ns m = .ok () m := by
  simp [localCachePutMulti, hro]

/-- MemcacheManager.get under an enabled cache, a reliable backend and no
active snapshot: it returns the backend value (None on a miss) and only bumps
a hit or miss counter. -/
lemma mmGet_benign (k : String) (ns? : Option String) (hc : cfg.canUse = true)
    (hb : cfg.backendFails = false) (hro : m.isReadonly = false) :
    mmGet cfg k ns? m = .ok (bGet m.backend (resolveNs cfg ns?) k)
      (if bGet m.backend (resolveNs cfg ns?) k ≠ CacheVal.pyNone
       then { m with cacheHit := m.cacheHit + 1 }
       else { m with cacheMiss := m.cacheMiss + 1 }) := by
  by_cases hv : bGet m.backend (resolveNs cfg ns?) k ≠ CacheVal.pyNone <;>
    simp [mmGet, localCacheGet, localCachePut, hc, hb, hro, hv]

lemma countHits_backend (l : List (String × CacheVal)) :
    ∀ m : MCState, (countHits l m).backend = m.backend ∧
      (countHits l m).localCache = m.localCache ∧
      (countHits l m).isReadonly = m.isReadonly := by
  induction l with
  | nil => intro m; exact ⟨rfl, rfl, rfl⟩
  | cons p t ih =>
    intro m
    obtain ⟨p1, p2⟩ := p
    by_cases hv : p2 ≠ CacheVal.pyNone
    · simpa [countHits, hv] using ih _
    · simpa [countHits, hv] using ih _

/-- MemcacheManager.get_multi under an enabled cache, a reliable backend and
no active snapshot: it returns the mapping of backend-found keys and only
bumps counters. -/
lemma mmGetMulti_benign (keys : List String) (ns? : Option String)
    (hc : cfg.canUse = true) (hb : cfg.backendFails = false)
    (hro : m.isReadonly = false) :
    mmGetMulti cfg keys ns? m
      = .ok (.asDict (bGetMulti m.backend (resolveNs cfg ns?) keys))
          (countHits (bGetMulti m.backend (resolveNs cfg ns?) keys) m) := by
  simp only [mmGetMulti, hc, if_true,
    localCacheGetMulti_not_readonly cfg m keys (resolveNs cfg ns?) hro, hb,
    Bool.false_eq_true, if_false,
    localCachePutMulti_not_readonly cfg
      (countHits (bGetMulti m.backend (resolveNs cfg ns?) keys) m)
      (bGetMulti m.backend (resolveNs cfg ns?) keys) (resolveNs cfg ns?)
      (((countHits_backend (bGetMulti m.backend (resolveNs cfg ns?) keys) m).2.2).trans hro)]

/-- MemcacheManager.set under an enabled cache, a reliable backend, no active
snapshot and a value within the size ceiling. -/
lemma mmSet_benign (k : String) (v : CacheVal) (ns? : Option String)
    (hc : cfg.canUse = true) (hb : cfg.backendFails = false)
    (hro : m.isReadonly = false) (hsz : cfg.sizeOfVal v ≤ MEMCACHE_MAX) :
    mmSet cfg k v ns? m
      = { m with cachePut := m.cachePut + 1,
                 backend := bInsert m.backend (resolveNs cfg ns?) k v } := by
  have hsz1 : ¬ cfg.sizeOfVal v > MEMCACHE_MAX := by omega
  simp [mmSet, mmSetInner, localCachePut, hc, hb, hro, hsz1]

/-- MemcacheManager.set_multi under the same benign conditions with a nonempty
mapping within the batch ceiling. -/
lemma mmSetMulti_benign (mp : List (String × CacheVal)) (ns? : Option String)
    (hc : cfg.canUse = true) (hb : cfg.backendFails = false)
    (hro : m.isReadonly = false) (hne : mp.isEmpty = false)
    (hsz : multiSize cfg mp ≤ MEMCACHE_MULTI_MAX) :
    mmSetMulti cfg mp ns? m
      = { m with cachePut := m.cachePut + 1,
                 backend := mp.foldl
                   (fun b p => bInsert b (resolveNs cfg ns?) p.1 p.2) m.backend } := by
  have hsz1 : ¬ multiSize cfg mp > MEMCACHE_MULTI_MAX := by omega
  simp only [mmSetMulti, mmSetMultiInner, hc, if_true, hne, Bool.false_eq_true,
    if_false, hsz1, hb,
    localCachePutMulti_not_readonly cfg
      { m with cachePut := m.cachePut + 1,
               backend := mp.foldl
                 (fun b p => bInsert b (resolveNs cfg ns?) p.1 p.2) m.backend }
      mp (resolveNs cfg ns?) hro]

/-- MemcacheManager.delete under an enabled cache, a reliable backend and no
active snapshot. -/
lemma mmDelete_benign (k : String) (ns? : Option String) (hc : cfg.canUse = true)
    (hb : cfg.backendFails = false) (hro : m.isReadonly = false) :
    mmDelete cfg k ns? m
      = .ok () { m with cacheDelete := m.cacheDelete + 1,
                        backend := bDelete m.backend (resolveNs cfg ns?) k } := by
  simp [mmDelete, hro, hc, hb]

end BenignFacade

/-- C1: refuted on the code.  A cached value that is structurally equal to an
empty mapping but is not the sentinel object itself is nevertheless classified
as confirmed-absent by the reads: _load_entity returns None (and load returns
None) without consulting the backing store, although the store holds the
record, because the source compares with NO_OBJECT by structural equality. -/
theorem c1_empty_dict_treated_as_absent :
    (loadEntity cfgB daoQ (some (.num 1)) c1State).valOf = some CacheVal.pyNone
    ∧ (daoLoad cfgB daoQ (some (.num 1)) c1State).valOf = some none
    ∧ bLookup c1State.mc.backend "ns" (memcacheKey daoQ (.num 1))
        = some CacheVal.emptyDict
    ∧ pyEqNoObject CacheVal.emptyDict = true
    ∧ CacheVal.emptyDict ≠ CacheVal.noObject
    ∧ alookup c1State.store (.num 1) = some "payload"
    ∧ (loadEntity cfgB daoQ (some (.num 1)) c1State).stateOf.store = c1State.store := by
  exact ⟨rfl, rfl, rfl, rfl, by decide, rfl, rfl⟩

/-- C3: refuted on the code for the empty collection.  Both calls return the
same (empty) value, and the first call does cache the known-empty sentinel
under the aggregate key, but the second call performs another backing-store
scan (the scan probe reaches 2) because the read guard of get_all_mapped
treats the cached NO_OBJECT exactly like a miss. -/
theorem c3_known_empty_rescans :
    c3First.valOf = some [] ∧ c3Second.valOf = some []
    ∧ c3First.stateOf.scans = 1 ∧ c3Second.stateOf.scans = 2
    ∧ bLookup c3First.stateOf.mc.backend "ns" (memcacheAllKey daoQ)
        = some CacheVal.noObject := by
  exact ⟨rfl, rfl, rfl, rfl, rfl⟩

/-- C7: refuted on the code.  While a snapshot is active and every requested
key hits the local map, get_multi returns the bare list of values instead of a
mapping from key to value. -/
theorem c7_get_multi_returns_list :
    (mmGetMulti cfgB ["k"] none c7State).valOf
      = some (.asList [.entity ⟨some (.num 1), "d"⟩])
    ∧ ∀ d : List (String × CacheVal),
        (mmGetMulti cfgB ["k"] none c7State).valOf ≠ some (.asDict d) := by
  refine ⟨rfl, ?_⟩
  intro d h
  have h0 : (mmGetMulti cfgB ["k"] none c7State).valOf
      = some (.asList [.entity ⟨some (.num 1), "d"⟩]) := rfl
  rw [h0] at h
  exact GMRes.noConfusion (Option.some.inj h)

/-- C9: refuted on the code for the string-name key strategy.  save returns
the name identifier, which a subsequent load resolves; save_all on the same
input returns a sequence holding None (the source returns key.id(), which is
None for a name-keyed record), and loading with that None yields nothing. -/
theorem c9_save_all_name_key_returns_none :
    (daoSave cfgB daoN c9Dto dInit).valOf = some (.name "foo")
    ∧ (daoSaveAll cfgB daoN [c9Dto] dInit).valOf = some [none]
    ∧ (daoLoad cfgB daoN (some (.name "foo"))
        (daoSaveAll cfgB daoN [c9Dto] dInit).stateOf).valOf
        = some (some ⟨some (.name "foo"), "p"⟩)
    ∧ (daoLoad cfgB daoN none
        (daoSaveAll cfgB daoN [c9Dto] dInit).stateOf).valOf = some none := by
  exact ⟨rfl, rfl, rfl, rfl⟩

/-- C5 as stated is refuted: delete propagates the transport failure raised by
the backend instead of returning normally. -/
theorem c5_delete_raises_counterexample :
    (mmDelete cfgFail "k" none initMCState).raised = true
    ∧ (mmDeleteMulti cfgFail ["k"] none initMCState).raised = true
    ∧ (mmIncr cfgFail "k" 1 none initMCState).raised = true := by
  exact ⟨rfl, rfl, rfl⟩

/-- C5 amended: when the distributed backend raises a transport failure on
writes, set and set_multi return normally as no-ops (no backend write, no
local-cache write, nothing surfaced), while delete, delete_multi and increment
have no handler and propagate the failure. -/
theorem c5_amended_write_failures (cfg : MCfg) (m : MCState) (k : String)
    (v : CacheVal) (mp : List (String × CacheVal)) (ks : List String) (d : Nat)
    (ns? : Option String) (hb : cfg.backendFails = true) (hc : cfg.canUse = true)
    (hro : m.isReadonly = false) :
    (mmSet cfg k v ns? m).backend = m.backend
    ∧ (mmSet cfg k v ns? m).localCache = m.localCache
    ∧ (mmSetMulti cfg mp ns? m).backend = m.backend
    ∧ (mmSetMulti cfg mp ns? m).localCache = m.localCache
    ∧ (mmDelete cfg k ns? m).raised = true
    ∧ (mmDeleteMulti cfg ks ns? m).raised = true
    ∧ (mmIncr cfg k d ns? m).raised = true := by
  refine ⟨?_, ?_, ?_, ?_, ?_, ?_, ?_⟩
  · by_cases hsz : cfg.sizeOfVal v > MEMCACHE_MAX <;>
      simp [mmSet, mmSetInner, hc, hb, hsz]
  · by_cases hsz : cfg.sizeOfVal v > MEMCACHE_MAX <;>
      simp [mmSet, mmSetInner, hc, hb, hsz]
  · by_cases hne : mp.isEmpty <;>
      by_cases hsz : multiSize cfg mp > MEMCACHE_MULTI_MAX <;>
      simp [mmSetMulti, mmSetMultiInner, hc, hb, hne, hsz]
  · by_cases hne : mp.isEmpty <;>
      by_cases hsz : multiSize cfg mp > MEMCACHE_MULTI_MAX <;>
      simp [mmSetMulti, mmSetMultiInner, hc, hb, hne, hsz]
  · simp [mmDelete, hro, hc, hb, Res.raised]
  · simp [mmDeleteMulti, hro, hc, hb, Res.raised]
  · simp [mmIncr, hc, hb, Res.raised]

/-- Witness for the amended C5 at a concrete failing backend. -/
theorem c5_amended_write_failures_witness :
    (mmSet cfgFail "k" (.intVal 1) none initMCState).backend = initMCState.backend
    ∧ (mmSet cfgFail "k" (.intVal 1) none initMCState).localCache
        = initMCState.localCache
    ∧ (mmSetMulti cfgFail [("k", .intVal 1)] none initMCState).backend
        = initMCState.backend
    ∧ (mmSetMulti cfgFail [("k", .intVal 1)] none initMCState).localCache
        = initMCState.localCache
    ∧ (mmDelete cfgFail "k" none initMCState).raised = true
    ∧ (mmDeleteMulti cfgFail ["k"] none initMCState).raised = true
    ∧ (mmIncr cfgFail "k" 1 none initMCState).raised = true :=
  c5_amended_write_failures cfgFail initMCState "k" (.intVal 1)
    [("k", .intVal 1)] ["k"] 1 none rfl rfl rfl

/-- C6: under an enabled cache, a single write whose measured size exceeds the
per-item ceiling, and a nonempty multi-write whose summed key-plus-value size
exceeds the per-batch ceiling, leave the whole state unchanged except for
exactly one increment of the oversize-drop counter: the backend write is
skipped entirely and nothing is raised. -/
theorem c6_oversize_drop (cfg : MCfg) (m : MCState) (k : String) (v : CacheVal)
    (mp : List (String × CacheVal)) (ns? : Option String)
    (hc : cfg.canUse = true) :
    (cfg.sizeOfVal v > MEMCACHE_MAX →
      mmSet cfg k v ns? m = { m with cachePutTooBig := m.cachePutTooBig + 1 })
    ∧ (mp.isEmpty = false → multiSize cfg mp > MEMCACHE_MULTI_MAX →
      mmSetMulti cfg mp ns? m
        = { m with cachePutTooBig := m.cachePutTooBig + 1 }) := by
  constructor
  · intro hsz
    simp [mmSet, mmSetInner, hc, hsz]
  · intro hne hsz
    simp [mmSetMulti, mmSetMultiInner, hc, hne, hsz]

/-- Witness for C6 at a concrete oversize value and batch. -/
theorem c6_oversize_drop_witness :
    mmSet cfgBig "k" (.intVal 1) none initMCState
      = { initMCState with cachePutTooBig := initMCState.cachePutTooBig + 1 }
    ∧ mmSetMulti cfgBig [("k", .intVal 1)] none initMCState
      = { initMCState with cachePutTooBig := initMCState.cachePutTooBig + 1 } := by
  have h := c6_oversize_drop cfgBig initMCState "k" (.intVal 1)
    [("k", .intVal 1)] none rfl
  refine ⟨h.1 (Nat.lt_succ_self _), h.2 rfl ?_⟩
  show MEMCACHE_MULTI_MAX < multiSize cfgBig [("k", .intVal 1)]
  simp [multiSize, cfgBig]
  omega

/-- C10: delete requires the backing record to be loadable.  Whenever the
DTO id is unset or falsy, or the single-record cache entry is the Absent
sentinel, or the record is in neither the cache nor the backing store, delete
raises before any cache cleanup: every existing cache binding survives and the
backing store is untouched. -/
theorem c10_delete_unloadable (cfg : MCfg) (dao : DaoCfg) (dto : Dto)
    (s : DState) (hc : cfg.canUse = true) (hb : cfg.backendFails = false)
    (hro : s.mc.isReadonly = false)
    (hcase :
      dto.id = none
      ∨ (∃ oid, dto.id = some oid ∧ eidTruthy oid = false)
      ∨ (∃ oid, dto.id = some oid ∧ eidTruthy oid = true
          ∧ bLookup s.mc.backend cfg.currentNs (memcacheKey dao oid)
              = some CacheVal.noObject)
      ∨ (∃ oid, dto.id = some oid ∧ eidTruthy oid = true
          ∧ bLookup s.mc.backend cfg.currentNs (memcacheKey dao oid) = none
          ∧ getEntityByKey dao s.store oid = .ok none)) :
    (daoDelete cfg dao dto s).raised = true
    ∧ (∀ ns k v, bLookup s.mc.backend ns k = some v →
        bLookup (daoDelete cfg dao dto s).stateOf.mc.backend ns k = some v)
    ∧ (daoDelete cfg dao dto s).stateOf.store = s.store := by
  rcases hcase with hid | ⟨oid, hid, htr⟩ | ⟨oid, hid, htr, hlook⟩
    | ⟨oid, hid, htr, hlook, hge⟩
  · have hD : daoDelete cfg dao dto s
        = .err (.attributeError "no attribute delete") s := by
      simp [daoDelete, loadEntity, hid]
    rw [hD]
    exact ⟨rfl, fun ns k v h => h, rfl⟩
  · have hD : daoDelete cfg dao dto s
        = .err (.attributeError "no attribute delete") s := by
      simp [daoDelete, loadEntity, hid, htr]
    rw [hD]
    exact ⟨rfl, fun ns k v h => h, rfl⟩
  · have hbg : bGet s.mc.backend (resolveNs cfg none) (memcacheKey dao oid)
        = CacheVal.noObject := by
      simp [bGet, resolveNs, hlook]
    have hD : daoDelete cfg dao dto s
        = .err (.attributeError "no attribute delete")
            { s with mc := { s.mc with cacheHit := s.mc.cacheHit + 1 } } := by
      simp [daoDelete, loadEntity, hid, htr, dGet,
        mmGet_benign cfg s.mc (memcacheKey dao oid) none hc hb hro, hbg,
        pyEqNoObject]
    rw [hD]
    exact ⟨rfl, fun ns k v h => h, rfl⟩
  · have hbg : bGet s.mc.backend (resolveNs cfg none) (memcacheKey dao oid)
        = CacheVal.pyNone := by
      simp [bGet, resolveNs, hlook]
    have hD : daoDelete cfg dao dto s
        = .err (.attributeError "no attribute delete")
            (dSet cfg (memcacheKey dao oid) .noObject
              { s with mc := { s.mc with cacheMiss := s.mc.cacheMiss + 1 } }) := by
      simp [daoDelete, loadEntity, hid, htr, dGet,
        mmGet_benign cfg s.mc (memcacheKey dao oid) none hc hb hro, hbg,
        pyEqNoObject, pyTruthy, hge]
    rw [hD]
    refine ⟨rfl, ?_, rfl⟩
    intro ns k v h
    show bLookup (mmSet cfg (memcacheKey dao oid) .noObject none
      { s.mc with cacheMiss := s.mc.cacheMiss + 1 }).backend ns k = some v
    by_cases hsz : cfg.sizeOfVal .noObject > MEMCACHE_MAX
    · have hS : mmSet cfg (memcacheKey dao oid) .noObject none
          { s.mc with cacheMiss := s.mc.cacheMiss + 1 }
          = { { s.mc with cacheMiss := s.mc.cacheMiss + 1 } with
              cachePutTooBig := s.mc.cachePutTooBig + 1 } := by
        simp [mmSet, mmSetInner, hc, hsz]
      rw [hS]
      exact h
    · rw [mmSet_benign cfg { s.mc with cacheMiss := s.mc.cacheMiss + 1 }
        (memcacheKey dao oid) .noObject none hc hb hro (by omega)]
      show bLookup (bInsert s.mc.backend (resolveNs cfg none)
        (memcacheKey dao oid) .noObject) ns k = some v
      rw [bLookup_bInsert]
      by_cases hp : (ns, k) = (resolveNs cfg none, memcacheKey dao oid)
      · exfalso
        obtain ⟨h1, h2⟩ := Prod.mk.injEq .. ▸ hp
        rw [h1, h2] at h
        rw [show resolveNs cfg none = cfg.currentNs from rfl] at h
        rw [hlook] at h
        cases h
      · rw [if_neg hp]
        exact h

/-- Witness for C10 at a concrete DTO whose id is unset. -/
theorem c10_delete_unloadable_witness :
    (daoDelete cfgB daoQ ⟨none, "p"⟩ dInit).raised = true
    ∧ (∀ ns k v, bLookup dInit.mc.backend ns k = some v →
        bLookup (daoDelete cfgB daoQ ⟨none, "p"⟩ dInit).stateOf.mc.backend ns k
          = some v)
    ∧ (daoDelete cfgB daoQ ⟨none, "p"⟩ dInit).stateOf.store = dInit.store :=
  c10_delete_unloadable cfgB daoQ ⟨none, "p"⟩ dInit rfl rfl rfl (Or.inl rfl)

lemma alookup_mem {κ ν : Type} [DecidableEq κ] (l : List (κ × ν)) (k : κ)
    (v : ν) (h : alookup l k = some v) : (k, v) ∈ l := by
  induction l with
  | nil => cases h
  | cons p t ih =>
    obtain ⟨p1, p2⟩ := p
    by_cases h1 : k = p1
    · rw [alookup, if_pos h1] at h
      obtain rfl := Option.some.inj h
      exact h1 ▸ List.mem_cons_self _ t
    · rw [alookup, if_neg h1] at h
      exact List.mem_cons_of_mem _ (ih h)

lemma bLookup_foldl_bInsert (entries : List (String × CacheVal)) (ns k : String)
    (v : CacheVal) :
    ∀ b : Backend, (∀ p ∈ entries, p.1 = k → p.2 = v) →
      ((∃ p ∈ entries, p.1 = k) ∨ bLookup b ns k = some v) →
      bLookup (entries.foldl (fun bb p => bInsert bb ns p.1 p.2) b) ns k
        = some v := by
  induction entries with
  | nil =>
    intro b _ hex
    rcases hex with ⟨p, hp, _⟩ | h
    · cases hp
    · simpa using h
  | cons q t ih =>
    intro b hall hex
    simp only [List.foldl_cons]
    refine ih (bInsert b ns q.1 q.2)
      (fun p hp => hall p (List.mem_cons_of_mem q hp)) ?_
    by_cases hq : q.1 = k
    · right
      rw [bLookup_bInsert, if_pos (by rw [hq]),
        hall q (List.mem_cons_self q t) hq]
    · rcases hex with ⟨p, hp, hpk⟩ | h
      · rcases List.mem_cons.mp hp with h1 | h1
        · subst h1; exact absurd hpk hq
        · exact Or.inl ⟨p, h1, hpk⟩
      · right
        rw [bLookup_bInsert, if_neg (fun he => hq (congrArg Prod.snd he).symm)]
        exact h

lemma gmContains_gmOf (b : Backend) (ns : String) (dao : DaoCfg)
    (ids : List EId) (oid : EId) (h : oid ∈ ids) :
    gmContains (gmOf b ns dao ids) (memcacheKey dao oid)
      = (bLookup b ns (memcacheKey dao oid)).isSome := by
  simp only [gmContains, gmOf]
  rw [alookup_bGetMulti b ns _ _ (List.mem_map_of_mem _ h)]

lemma gmIndex_gmOf (b : Backend) (ns : String) (dao : DaoCfg) (ids : List EId)
    (oid : EId) (h : oid ∈ ids) :
    gmIndex (gmOf b ns dao ids) (memcacheKey dao oid)
      = (bLookup b ns (memcacheKey dao oid)).getD .pyNone := by
  simp only [gmIndex, gmOf]
  rw [alookup_bGetMulti b ns _ _ (List.mem_map_of_mem _ h)]

lemma mem_dsKeysOf (b : Backend) (ns : String) (dao : DaoCfg) (ids : List EId)
    (oid : EId) :
    oid ∈ dsKeysOf b ns dao ids
      ↔ oid ∈ ids
        ∧ gmContains (gmOf b ns dao ids) (memcacheKey dao oid) = false :=
  mem_filterMap_pair ids (memcacheKey dao)
    (fun k => gmContains (gmOf b ns dao ids) k) oid

lemma dsDict_join (b : Backend) (ns : String) (dao : DaoCfg)
    (st : List (EId × String)) (ids : List EId) (oid : EId) (h : oid ∈ ids) :
    (alookup (dsDictOf b ns dao st ids) oid).join
      = if gmContains (gmOf b ns dao ids) (memcacheKey dao oid)
        then none
        else (alookup st oid).map (fun d => (⟨some oid, d⟩ : Ent)) := by
  rw [dsDictOf, alookup_map_self]
  by_cases hm : oid ∈ dsKeysOf b ns dao ids
  · have h2 := ((mem_dsKeysOf b ns dao ids oid).mp hm).2
    rw [if_pos hm, h2]
    simp
  · have hg : gmContains (gmOf b ns dao ids) (memcacheKey dao oid) = true := by
      by_contra hgc
      exact hm ((mem_dsKeysOf b ns dao ids oid).mpr
        ⟨h, Bool.not_eq_true _ ▸ hgc⟩)
    rw [if_neg hm, hg]
    rfl

lemma weaveStep_pred (b : Backend) (ns : String) (dao : DaoCfg)
    (st : List (EId × String)) (ids : List EId) (oid : EId) (h : oid ∈ ids)
    (hwf : wfEntityCache b ns dao ids) :
    weaveStep (dsDictOf b ns dao st ids) (gmOf b ns dao ids) oid
        (memcacheKey dao oid)
      = .ok (predSlot b ns dao st oid, predUpd b ns dao st oid,
             predFresh b ns dao st oid) := by
  rw [weaveStep, dsDict_join b ns dao st ids oid h]
  rcases hwf oid h with hbv | hbv | ⟨e, hbv⟩
  · have hgc : gmContains (gmOf b ns dao ids) (memcacheKey dao oid) = false := by
      rw [gmContains_gmOf b ns dao ids oid h, hbv]; rfl
    rw [hgc]
    cases hst : alookup st oid with
    | none => simp [predSlot, predUpd, predFresh, hbv, hst, hgc]
    | some d => simp [predSlot, predUpd, predFresh, hbv, hst, hgc]
  · have hgc : gmContains (gmOf b ns dao ids) (memcacheKey dao oid) = true := by
      rw [gmContains_gmOf b ns dao ids oid h, hbv]; rfl
    rw [hgc]
    simp [gmIndex_gmOf b ns dao ids oid h, hbv, predSlot, predUpd, predFresh,
      pyEqNoObject, hgc]
  · have hgc : gmContains (gmOf b ns dao ids) (memcacheKey dao oid) = true := by
      rw [gmContains_gmOf b ns dao ids oid h, hbv]; rfl
    rw [hgc]
    simp [gmIndex_gmOf b ns dao ids oid h, hbv, predSlot, predUpd, predFresh,
      pyEqNoObject, hgc]

lemma weaveAll_pred (b : Backend) (ns : String) (dao : DaoCfg)
    (st : List (EId × String)) (ids : List EId)
    (hwf : wfEntityCache b ns dao ids) :
    ∀ l : List EId, (∀ oid ∈ l, oid ∈ ids) →
      weaveAll (dsDictOf b ns dao st ids) (gmOf b ns dao ids)
        (l.map (fun i => (i, memcacheKey dao i)))
      = .ok (l.map (predSlot b ns dao st), l.filterMap (predUpd b ns dao st),
             l.filterMap (predFresh b ns dao st)) := by
  intro l
  induction l with
  | nil => intro _; rfl
  | cons a t ih =>
    intro hl
    have ha := hl a (List.mem_cons_self a t)
    rw [List.map_cons, weaveAll, weaveStep_pred b ns dao st ids a ha hwf,
      ih (fun o ho => hl o (List.mem_cons_of_mem a ho))]
    cases hu : predUpd b ns dao st a <;> cases hf : predFresh b ns dao st a <;>
      simp [List.filterMap_cons, hu, hf]

lemma bulkLoad_eq (cfg : MCfg) (dao : DaoCfg) (ids : List EId) (s : DState)
    (hc : cfg.canUse = true) (hb : cfg.backendFails = false)
    (hro : s.mc.isReadonly = false)
    (hwf : wfEntityCache s.mc.backend cfg.currentNs dao ids) :
    bulkLoad cfg dao ids s
      = .ok (ids.map (fun oid =>
          (fun p : Option Dto × Bool =>
            if p.2 then p.1.map (applyChain dao.hooks) else p.1)
            (predSlot s.mc.backend cfg.currentNs dao s.store oid)))
        (bulkFinal cfg dao ids s) := by
  have hGM : dGetMulti cfg (ids.map (memcacheKey dao)) s
      = .ok (gmOf s.mc.backend cfg.currentNs dao ids)
          { s with mc := countHits (bGetMulti s.mc.backend cfg.currentNs
              (ids.map (memcacheKey dao))) s.mc } := by
    rw [dGetMulti, mmGetMulti_benign cfg s.mc _ none hc hb hro]
    rfl
  have hW := weaveAll_pred s.mc.backend cfg.currentNs dao s.store ids hwf ids
    (fun o ho => ho)
  simp only [dsDictOf, dsKeysOf] at hW
  simp only [bulkLoad, hGM, zip_map_self]
  rw [hW]
  simp only [bulkFinal, applyPostHooks, dsDictOf, dsKeysOf, List.map_map]
  rfl

lemma multiSize_zero (cfg : MCfg) (hszk : ∀ k, cfg.sizeOfKey k = 0)
    (hszv : ∀ v, cfg.sizeOfVal v = 0) (mp : List (String × CacheVal)) :
    multiSize cfg mp = 0 := by
  induction mp with
  | nil => rfl
  | cons p t ih =>
    simp only [multiSize, List.map_cons, List.sum_cons, hszk, hszv] at ih ⊢
    omega

lemma bulkFinal_store (cfg : MCfg) (dao : DaoCfg) (ids : List EId) (s : DState) :
    (bulkFinal cfg dao ids s).store = s.store := by
  by_cases h : (dsDictOf s.mc.backend cfg.currentNs dao s.store ids).isEmpty <;>
    simp [bulkFinal, h, dSetMulti]

lemma bulkFinal_hookCalls (cfg : MCfg) (dao : DaoCfg) (ids : List EId)
    (s : DState) :
    (bulkFinal cfg dao ids s).hookCalls
      = s.hookCalls ++ (runHooks dao.hooks
          (ids.filterMap (predFresh s.mc.backend cfg.currentNs dao s.store))).2 := by
  by_cases h : (dsDictOf s.mc.backend cfg.currentNs dao s.store ids).isEmpty <;>
    simp [bulkFinal, h, dSetMulti]

lemma bulkFinal_sentinel (cfg : MCfg) (dao : DaoCfg) (ids : List EId)
    (s : DState) (hc : cfg.canUse = true) (hb : cfg.backendFails = false)
    (hro : s.mc.isReadonly = false)
    (hszk : ∀ k, cfg.sizeOfKey k = 0) (hszv : ∀ v, cfg.sizeOfVal v = 0)
    (hinj : ∀ a ∈ ids, ∀ c ∈ ids, memcacheKey dao a = memcacheKey dao c → a = c)
    (oid : EId) (hmem : oid ∈ ids)
    (hcache : bLookup s.mc.backend cfg.currentNs (memcacheKey dao oid) = none)
    (hstore : alookup s.store oid = none) :
    bLookup (bulkFinal cfg dao ids s).mc.backend cfg.currentNs
      (memcacheKey dao oid) = some CacheVal.noObject := by
  have hgc : gmContains (gmOf s.mc.backend cfg.currentNs dao ids)
      (memcacheKey dao oid) = false := by
    rw [gmContains_gmOf s.mc.backend cfg.currentNs dao ids oid hmem, hcache]
    rfl
  have hdk : oid ∈ dsKeysOf s.mc.backend cfg.currentNs dao ids :=
    (mem_dsKeysOf s.mc.backend cfg.currentNs dao ids oid).mpr ⟨hmem, hgc⟩
  have hne : (dsDictOf s.mc.backend cfg.currentNs dao s.store ids).isEmpty
      = false := by
    rw [dsDictOf]
    cases hdd : dsKeysOf s.mc.backend cfg.currentNs dao ids with
    | nil => rw [hdd] at hdk; cases hdk
    | cons x xs => rfl
  have hall : ∀ p ∈ ids.filterMap
      (predUpd s.mc.backend cfg.currentNs dao s.store),
      p.1 = memcacheKey dao oid → p.2 = CacheVal.noObject := by
    intro p hp hpk
    obtain ⟨a, ha, hpa⟩ := List.mem_filterMap.mp hp
    have hka : p.1 = memcacheKey dao a := by
      unfold predUpd at hpa
      cases hbv : bLookup s.mc.backend cfg.currentNs (memcacheKey dao a) with
      | some v => rw [hbv] at hpa; cases hpa
      | none =>
        rw [hbv] at hpa
        cases hst : alookup s.store a with
        | some d =>
          rw [hst] at hpa
          obtain rfl := Option.some.inj hpa
          rfl
        | none =>
          rw [hst] at hpa
          obtain rfl := Option.some.inj hpa
          rfl
    have haeq : a = oid := hinj a ha oid hmem (by rw [← hka, hpk])
    subst haeq
    unfold predUpd at hpa
    rw [hcache, hstore] at hpa
    obtain rfl := Option.some.inj hpa
    rfl
  have hentry : (memcacheKey dao oid, CacheVal.noObject)
      ∈ ids.filterMap (predUpd s.mc.backend cfg.currentNs dao s.store) :=
    List.mem_filterMap.mpr ⟨oid, hmem, by
      unfold predUpd
      rw [hcache, hstore]⟩
  have halook : alookup
      ((ids.filterMap (predUpd s.mc.backend cfg.currentNs dao s.store)).foldl
        (fun acc q => aInsert q.1 q.2 acc) [])
      (memcacheKey dao oid) = some CacheVal.noObject :=
    alookup_foldl_aInsert _ _ _ [] hall (Or.inl ⟨_, hentry, rfl⟩)
  have hupdne : ((ids.filterMap
      (predUpd s.mc.backend cfg.currentNs dao s.store)).foldl
        (fun acc q => aInsert q.1 q.2 acc) []).isEmpty = false := by
    cases hu : (ids.filterMap
        (predUpd s.mc.backend cfg.currentNs dao s.store)).foldl
        (fun acc q => aInsert q.1 q.2 acc) [] with
    | nil => rw [hu] at halook; cases halook
    | cons x xs => rfl
  have hro2 : (countHits (bGetMulti s.mc.backend cfg.currentNs
      (ids.map (memcacheKey dao))) s.mc).isReadonly = false :=
    ((countHits_backend _ s.mc).2.2).trans hro
  simp only [bulkFinal, hne, Bool.false_eq_true, if_false, dSetMulti]
  rw [mmSetMulti_benign cfg _ _ none hc hb hro2 hupdne
    (by rw [multiSize_zero cfg hszk hszv]; exact Nat.zero_le _)]
  show bLookup (List.foldl _ (countHits (bGetMulti s.mc.backend cfg.currentNs
    (ids.map (memcacheKey dao))) s.mc).backend _) cfg.currentNs
    (memcacheKey dao oid) = some CacheVal.noObject
  rw [(countHits_backend (bGetMulti s.mc.backend cfg.currentNs
    (ids.map (memcacheKey dao))) s.mc).1]
  refine bLookup_foldl_bInsert _ cfg.currentNs (memcacheKey dao oid)
    CacheVal.noObject s.mc.backend ?_ ?_
  · intro p hp hpk
    rcases mem_foldl_aInsert _ [] p hp with h1 | h1
    · exact hall p h1 hpk
    · cases h1
  · exact Or.inl ⟨_, alookup_mem _ _ _ halook, rfl⟩

/-- C4: over a well-formed cache that is coherent with the backing store,
bulk_load never raises, returns a sequence positionally aligned with the input
ids and of the same length, with nil exactly at the positions whose id has no
real cached entity and is absent from the backing store; and for every id
found in neither tier the Absent sentinel is committed to the cache. -/
theorem c4_bulk_load_aligned (cfg : MCfg) (dao : DaoCfg) (ids : List EId)
    (s : DState) (hc : cfg.canUse = true) (hb : cfg.backendFails = false)
    (hro : s.mc.isReadonly = false)
    (hszk : ∀ k, cfg.sizeOfKey k = 0) (hszv : ∀ v, cfg.sizeOfVal v = 0)
    (hwf : wfEntityCache s.mc.backend cfg.currentNs dao ids)
    (hcoh : ∀ oid ∈ ids,
        bLookup s.mc.backend cfg.currentNs (memcacheKey dao oid)
          = some CacheVal.noObject → alookup s.store oid = none)
    (hinj : ∀ a ∈ ids, ∀ c ∈ ids,
        memcacheKey dao a = memcacheKey dao c → a = c) :
    (bulkLoad cfg dao ids s).raised = false
    ∧ ((bulkLoad cfg dao ids s).valOf.getD []).length = ids.length
    ∧ (∀ i, (hi : i < ids.length) →
        ((((bulkLoad cfg dao ids s).valOf.getD [])[i]? = some none)
          ↔ (alookup s.store ids[i] = none
             ∧ ¬ ∃ e, bLookup s.mc.backend cfg.currentNs
                 (memcacheKey dao ids[i])
                 = some (CacheVal.entity e))))
    ∧ (∀ oid ∈ ids,
        bLookup s.mc.backend cfg.currentNs (memcacheKey dao oid) = none →
        alookup s.store oid = none →
        bLookup (bulkLoad cfg dao ids s).stateOf.mc.backend cfg.currentNs
          (memcacheKey dao oid) = some CacheVal.noObject) := by
  rw [bulkLoad_eq cfg dao ids s hc hb hro hwf]
  refine ⟨rfl, by simp [Res.valOf], ?_, ?_⟩
  · intro i hi
    have hoid : ids[i] ∈ ids := List.getElem_mem hi
    simp only [Res.valOf, Option.getD_some, List.getElem?_map,
      List.getElem?_eq_getElem hi, Option.map_some', Option.some_inj]
    rcases hwf _ hoid with hbv | hbv | ⟨e, hbv⟩
    · cases hst : alookup s.store ids[i] with
      | none => simp [predSlot, hbv, hst]
      | some d => simp [predSlot, hbv, hst]
    · simp [predSlot, hbv, hcoh _ hoid hbv]
    · simp [predSlot, hbv]
  · intro oid hmem h1 h2
    exact bulkFinal_sentinel cfg dao ids s hc hb hro hszk hszv hinj oid hmem h1 h2

/-- Witness for C4 at a concrete id list covering all four cases. -/
theorem c4_bulk_load_aligned_witness :
    (bulkLoad cfgB daoQ c4Ids c4State).raised = false
    ∧ bLookup (bulkLoad cfgB daoQ c4Ids c4State).stateOf.mc.backend "ns"
        (memcacheKey daoQ (.num 4)) = some CacheVal.noObject := by
  have h := c4_bulk_load_aligned cfgB daoQ c4Ids c4State rfl rfl rfl
    (fun _ => rfl) (fun _ => rfl)
    (by
      intro oid hm
      simp only [c4Ids] at hm
      fin_cases hm
      · exact Or.inl rfl
      · exact Or.inr (Or.inl rfl)
      · exact Or.inr (Or.inr ⟨⟨some (.num 3), "c"⟩, rfl⟩)
      · exact Or.inl rfl)
    (by
      intro oid hm
      simp only [c4Ids] at hm
      fin_cases hm <;> decide)
    (by
      intro a ha c hcm
      simp only [c4Ids] at ha hcm
      fin_cases ha <;> fin_cases hcm <;> decide)
  exact ⟨h.1, h.2.2.2 (.num 4) (by simp [c4Ids]) rfl rfl⟩

/-- C8 as stated is refuted: a singleton load whose entity comes from the
cache (the store is empty) still invokes the registered hook on the resulting
DTO, so hooks do run on cache-served results. -/
theorem c8_cache_served_hook_counterexample :
    (daoLoad cfgB dao8 (some (.num 1)) c8State).stateOf.hookCalls
      = [[⟨some (.num 1), "d"⟩]]
    ∧ (daoLoad cfgB dao8 (some (.num 1)) c8State).valOf
      = some (some ⟨some (.num 1), "d!"⟩)
    ∧ c8State.store = [] :=
  ⟨rfl, rfl, rfl⟩

/-- C8 amended: with one registered hook, the singleton load applies the hook
exactly once to the one loaded DTO whenever it returns one, regardless of
whether the entity came from the cache or the store; bulk_load applies the
hook exactly once, to exactly the DTOs freshly fetched from the backing store
(predFresh), never to cache-served ones. -/
theorem c8_amended_hooks (cfg : MCfg) (dao : DaoCfg) (f : Dto → Dto)
    (objId : Option EId) (ids : List EId) (s : DState)
    (hhk : dao.hooks = [f]) (hc : cfg.canUse = true)
    (hb : cfg.backendFails = false) (hro : s.mc.isReadonly = false)
    (hwfL : ∀ oid, objId = some oid →
        bLookup s.mc.backend cfg.currentNs (memcacheKey dao oid) = none
        ∨ bLookup s.mc.backend cfg.currentNs (memcacheKey dao oid)
            = some CacheVal.noObject
        ∨ ∃ e, bLookup s.mc.backend cfg.currentNs (memcacheKey dao oid)
            = some (CacheVal.entity e))
    (hgeL : ∀ oid, objId = some oid →
        ∃ r, getEntityByKey dao s.store oid = .ok r)
    (hwfB : wfEntityCache s.mc.backend cfg.currentNs dao ids) :
    ((daoLoad cfg dao objId s).raised = false
      ∧ ((daoLoad cfg dao objId s).valOf = some none →
          (daoLoad cfg dao objId s).stateOf.hookCalls = s.hookCalls)
      ∧ (∀ d, (daoLoad cfg dao objId s).valOf = some (some d) →
          ∃ d0, d = f d0
            ∧ (daoLoad cfg dao objId s).stateOf.hookCalls
                = s.hookCalls ++ [[d0]]))
    ∧ (bulkLoad cfg dao ids s).stateOf.hookCalls
        = s.hookCalls
          ++ [ids.filterMap (predFresh s.mc.backend cfg.currentNs dao s.store)] := by
  constructor
  · match hobj : objId with
    | none =>
      refine ⟨rfl, fun _ => rfl, ?_⟩
      intro d hd
      cases hd
    | some oid =>
      by_cases htr : eidTruthy oid = true
      · rcases hwfL oid rfl with hbv | hbv | ⟨e, hbv⟩
        · obtain ⟨r, hge⟩ := hgeL oid rfl
          have hbg : bGet s.mc.backend (resolveNs cfg none)
              (memcacheKey dao oid) = CacheVal.pyNone := by
            simp [bGet, resolveNs, hbv]
          cases r with
          | none =>
            have hD : daoLoad cfg dao (some oid) s = .ok none
                (dSet cfg (memcacheKey dao oid) .noObject
                  { s with mc :=
                    { s.mc with cacheMiss := s.mc.cacheMiss + 1 } }) := by
              simp [daoLoad, loadEntity, htr, dGet,
                mmGet_benign cfg s.mc (memcacheKey dao oid) none hc hb hro,
                hbg, pyEqNoObject, pyTruthy, hge]
            rw [hD]
            refine ⟨rfl, fun _ => by simp [Res.stateOf, dSet], ?_⟩
            intro d hd
            cases hd
          | some ent =>
            have hD : daoLoad cfg dao (some oid) s
                = .ok (some (applyChain dao.hooks ⟨some oid, ent.data⟩))
                  { (dSet cfg (memcacheKey dao oid) (.entity ent)
                      { s with mc :=
                        { s.mc with cacheMiss := s.mc.cacheMiss + 1 } }) with
                    hookCalls := s.hookCalls
                      ++ (runHooks dao.hooks [⟨some oid, ent.data⟩]).2 } := by
              simp [daoLoad, loadEntity, htr, dGet,
                mmGet_benign cfg s.mc (memcacheKey dao oid) none hc hb hro,
                hbg, pyEqNoObject, pyTruthy, hge, applyPostHooks, dSet]
            rw [hD]
            refine ⟨rfl, ?_, ?_⟩
            · intro hcon
              simp [Res.valOf] at hcon
            · intro d hd
              simp only [Res.valOf, Option.some_inj] at hd
              refine ⟨⟨some oid, ent.data⟩, ?_, ?_⟩
              · rw [← hd, hhk]
                rfl
              · simp [Res.stateOf, hhk, runHooks]
        · have hbg : bGet s.mc.backend (resolveNs cfg none)
              (memcacheKey dao oid) = CacheVal.noObject := by
            simp [bGet, resolveNs, hbv]
          have hD : daoLoad cfg dao (some oid) s = .ok none
              { s with mc := { s.mc with cacheHit := s.mc.cacheHit + 1 } } := by
            simp [daoLoad, loadEntity, htr, dGet,
              mmGet_benign cfg s.mc (memcacheKey dao oid) none hc hb hro,
              hbg, pyEqNoObject, pyTruthy]
          rw [hD]
          refine ⟨rfl, fun _ => rfl, ?_⟩
          intro d hd
          cases hd
        · have hbg : bGet s.mc.backend (resolveNs cfg none)
              (memcacheKey dao oid) = CacheVal.entity e := by
            simp [bGet, resolveNs, hbv]
          have hD : daoLoad cfg dao (some oid) s
              = .ok (some (applyChain dao.hooks ⟨some oid, e.data⟩))
                { s with
                  mc := { s.mc with cacheHit := s.mc.cacheHit + 1 },
                  hookCalls := s.hookCalls
                    ++ (runHooks dao.hooks [⟨some oid, e.data⟩]).2 } := by
            simp [daoLoad, loadEntity, htr, dGet,
              mmGet_benign cfg s.mc (memcacheKey dao oid) none hc hb hro,
              hbg, pyEqNoObject, pyTruthy, applyPostHooks]
          rw [hD]
          refine ⟨rfl, ?_, ?_⟩
          · intro hcon
            simp [Res.valOf] at hcon
          · intro d hd
            simp only [Res.valOf, Option.some_inj] at hd
            refine ⟨⟨some oid, e.data⟩, ?_, ?_⟩
            · rw [← hd, hhk]
              rfl
            · simp [Res.stateOf, hhk, runHooks]
      · have hD : daoLoad cfg dao (some oid) s = .ok none s := by
          simp [daoLoad, loadEntity, htr, pyTruthy]
        rw [hD]
        refine ⟨rfl, fun _ => rfl, ?_⟩
        intro d hd
        cases hd
  · rw [bulkLoad_eq cfg dao ids s hc hb hro hwfB]
    show (bulkFinal cfg dao ids s).hookCalls = _
    rw [bulkFinal_hookCalls, hhk]
    rfl

/-- Witness for the amended C8: a singleton load over dao8 plus a bulk load
over a mixed cached/uncached id list. -/
theorem c8_amended_hooks_witness :
    (daoLoad cfgB dao8 (some (.num 1)) c8State).raised = false
    ∧ (bulkLoad cfgB dao8 [EId.num 1, EId.num 2] c8State).stateOf.hookCalls
      = c8State.hookCalls
        ++ [([EId.num 1, EId.num 2]).filterMap
            (predFresh c8State.mc.backend cfgB.currentNs dao8 c8State.store)] := by
  have h := c8_amended_hooks cfgB dao8 hk8 (some (.num 1))
    [EId.num 1, EId.num 2] c8State rfl rfl rfl rfl
    (by
      intro oid hoid
      cases hoid
      exact Or.inr (Or.inr ⟨⟨some (.num 1), "d"⟩, rfl⟩))
    (by
      intro oid hoid
      cases hoid
      exact ⟨none, rfl⟩)
    (by
      intro oid hm
      fin_cases hm
      · exact Or.inr (Or.inr ⟨⟨some (.num 1), "d"⟩, rfl⟩)
      · exact Or.inl rfl)
  exact ⟨h.1.1, h.2⟩

end TMS
